import Mathlib

/-!
Verification of the file-reorganization script `fmriprep/cli/BIDSgenerator.py`.

The script is shallowly embedded as programs in a state-error-trace monad `M`
over a flat filesystem model `FS` (a set of directory paths plus an
association list from file paths to contents).  Python exceptions are
modelled by the `Err` sum, external observable actions (directory creation,
file copies, the `pdb.set_trace()` breakpoint, shell subprocesses,
`nibabel` saves) by the `Event` trace.  External tools (FSL's
`fslreorient2std`, nilearn's smoothing) are parameters of an `Env` record.
NIfTI images are abstracted to the header fields the script actually reads:
the rows of the `sto_xyz` matrix (as token lists of rationals, mirroring the
whitespace-split output of `fslval`) and the `pixdim[4]` slot, plus an opaque
payload.  Python floats are modelled by `Rat`.
-/

set_option maxRecDepth 4000

namespace BIDSGen

/-! ### Definitions: the embedded data model and programs -/

/-- Does the pattern `pat` occur at the start of `l`?  (`str.startswith`). -/
def chStarts : List Char → List Char → Bool
  | [], _ => true
  | _ :: _, [] => false
  | p :: ps, c :: cs => p = c && chStarts ps cs

/-- Does `sub` occur anywhere inside `l`?  (Python's `in` on strings). -/
def chContains (sub : List Char) : List Char → Bool
  | [] => chStarts sub []
  | c :: cs => chStarts sub (c :: cs) || chContains sub cs

/-- Python `sub in s`. -/
def strContains (s sub : String) : Bool := chContains sub.data s.data

/-- Fuel-driven splitting of a character list on a non-empty separator,
mirroring Python's `str.split(sep)`. -/
def chSplitFuel (sep : List Char) : Nat → List Char → List (List Char)
  | 0, _ => [[]]
  | _ + 1, [] => [[]]
  | fuel + 1, c :: cs =>
    if sep ≠ [] ∧ chStarts sep (c :: cs) then
      [] :: chSplitFuel sep fuel ((c :: cs).drop sep.length)
    else
      match chSplitFuel sep fuel cs with
      | [] => [[c]]
      | h :: t => (c :: h) :: t

/-- Python `s.split(sep)` for a non-empty separator. -/
def strSplitOn (s sep : String) : List String :=
  (chSplitFuel sep.data (s.data.length + 1) s.data).map (fun l => ⟨l⟩)

/-- Python `s.endswith(t)`. -/
def strEndsWith (s t : String) : Bool := chStarts t.data.reverse s.data.reverse

/-- Join a list of strings with a separator. -/
def joinSep (sep : String) : List String → String
  | [] => ""
  | [a] => a
  | a :: rest => a ++ sep ++ joinSep sep rest

/-- `os.path.join` for the relative components used by the script. -/
def pjoin (parts : List String) : String := joinSep "/" parts

/-- `os.path.join(a, b)` where `a` may carry a trailing slash. -/
def join2 (a b : String) : String :=
  if strEndsWith a "/" then a ++ b else a ++ "/" ++ b

/-- Drop a single trailing slash (`os.path.isdir` accepts either form). -/
def stripSlash (p : String) : String :=
  if strEndsWith p "/" then ⟨p.data.dropLast⟩ else p

/-- The directory part of a path: everything before the last slash. -/
def dirname (p : String) : String :=
  ⟨((p.data.reverse.dropWhile (fun c => c ≠ '/')).drop 1).reverse⟩

/-- All the slash-separated ancestor paths of `p`, `p` itself included
(`os.makedirs` creates every missing intermediate directory). -/
def ancestorDirs (p : String) : List String :=
  let parts := strSplitOn p "/"
  ((List.range (parts.length - 1)).map (fun i => joinSep "/" (parts.take (i + 1)))) ++ [p]

/-- `s` holds no slash (a plain path component). -/
def noSlash (s : String) : Bool := s.data.all (fun c => c ≠ '/')

/-- The abstraction of a NIfTI image: the three `sto_xyz` rows that `fslval`
reports (kept as the token lists the script splits), the `pixdim[4]`
repetition-time slot that the script overwrites, and an opaque voxel
payload identifying the image data. -/
structure Image where
  sto1 : List Rat
  sto2 : List Rat
  sto3 : List Rat
  pixdim4 : Rat
  payload : Nat
deriving DecidableEq

/-- File contents: a NIfTI image, a JSON sidecar (with an optional
`RepetitionTime` key), or opaque bytes. -/
inductive Content where
  | image (img : Image)
  | json (repTime : Option Rat)
  | raw (payload : Nat)
deriving DecidableEq

/-- A flat filesystem: existing directories and a file map. -/
structure FS where
  dirs : List String
  files : List (String × Content)
deriving DecidableEq

def FS.getFile (fs : FS) (p : String) : Option Content := fs.files.lookup p

def FS.isfile (fs : FS) (p : String) : Bool := (fs.getFile p).isSome

def FS.isdir (fs : FS) (p : String) : Bool := fs.dirs.contains (stripSlash p)

/-- `os.path.exists`. -/
def FS.existsP (fs : FS) (p : String) : Bool := fs.isdir p || fs.isfile p

/-- Remove every entry with key `p` (file paths are unique on a real
filesystem, so writing a path replaces it). -/
def removeKey (p : String) : List (String × Content) → List (String × Content)
  | [] => []
  | kv :: rest => if kv.1 = p then removeKey p rest else kv :: removeKey p rest

def FS.setFile (fs : FS) (p : String) (c : Content) : FS :=
  { fs with files := (p, c) :: removeKey p fs.files }

def FS.delFile (fs : FS) (p : String) : FS :=
  { fs with files := removeKey p fs.files }

def FS.addDirs (fs : FS) (ps : List String) : FS :=
  { fs with dirs := ps ++ fs.dirs }

/-- The name `n` such that `p = d ++ "/" ++ n` with `n` a plain component,
if there is one: `p` is then an immediate child of directory `d`. -/
def childNameOf (d p : String) : Option String :=
  if chStarts (d.data ++ ['/']) p.data then
    let n := p.data.drop (d.data.length + 1)
    if n ≠ [] ∧ n.all (fun c => c ≠ '/') then some ⟨n⟩ else none
  else none

/-- Immediate subdirectory names of `dir`. -/
def childNamesD (fs : FS) (dir : String) : List String :=
  (fs.dirs.filterMap (fun p => childNameOf (stripSlash dir) p)).dedup

/-- Immediate file names of `dir`. -/
def childNamesF (fs : FS) (dir : String) : List String :=
  (fs.files.filterMap (fun kv => childNameOf (stripSlash dir) kv.1)).dedup

/-- `os.walk`, top-down; yields nothing when `top` is not a directory. -/
def walkFuel (fs : FS) : Nat → String → List (String × List String × List String)
  | 0, _ => []
  | fuel + 1, top =>
    if fs.isdir top then
      (top, childNamesD fs top, childNamesF fs top) ::
        ((childNamesD fs top).map (fun d => walkFuel fs fuel (join2 top d))).flatten
    else []

def walk (fs : FS) (top : String) : List (String × List String × List String) :=
  walkFuel fs (fs.dirs.length + 1) top

/-- Observable actions of the script. -/
inductive Event where
  | mkdir (path : String)
  | copy (src dst : String)
  | breakpoint
  | shell (prog : String) (args : String)
  | nibSave (path : String)
deriving DecidableEq

/-- Python exceptions the script can raise. -/
inductive Err where
  | stopIteration
  | indexError
  | keyError
  | fileNotFound
  | imageFileError
  | jsonDecodeError
deriving DecidableEq

/-- Behaviour of the external tools the script shells out to or imports. -/
structure Env where
  reorient : Image → Image
  smooth : Image → Nat → Image

/-- Result of running a program: the emitted events, the final filesystem,
and either a value or the exception that escaped. -/
structure Res (α : Type) where
  events : List Event
  fs : FS
  out : Except Err α

def M (α : Type) := FS → Res α

def M.pure (a : α) : M α := fun fs => ⟨[], fs, Except.ok a⟩

def M.bind (x : M α) (f : α → M β) : M β := fun fs =>
  match x fs with
  | ⟨ev, fs1, Except.ok a⟩ =>
    let r := f a fs1
    ⟨ev ++ r.events, r.fs, r.out⟩
  | ⟨ev, fs1, Except.error e⟩ => ⟨ev, fs1, Except.error e⟩

instance : Monad M where
  pure := M.pure
  bind := M.bind

def getFS : M FS := fun fs => ⟨[], fs, Except.ok fs⟩

def isfileM (p : String) : M Bool := fun fs => ⟨[], fs, Except.ok (fs.isfile p)⟩

def isdirM (p : String) : M Bool := fun fs => ⟨[], fs, Except.ok (fs.isdir p)⟩

def existsM (p : String) : M Bool := fun fs => ⟨[], fs, Except.ok (fs.existsP p)⟩

/-- `pdb.set_trace()`. -/
def breakpointM : M Unit := fun fs => ⟨[Event.breakpoint], fs, Except.ok ()⟩

/-- `os.makedirs`: creates the directory and all missing ancestors. -/
def mkdirsM (p : String) : M Unit := fun fs =>
  ⟨[Event.mkdir p], fs.addDirs (ancestorDirs p), Except.ok ()⟩

/-- `shutil.copyfile`: raises when the source file or the destination
directory is missing, otherwise writes the destination. -/
def copyfileM (src dst : String) : M Unit := fun fs =>
  match fs.getFile src with
  | none => ⟨[], fs, Except.error Err.fileNotFound⟩
  | some c =>
    if fs.isdir (dirname dst) then
      ⟨[Event.copy src dst], fs.setFile dst c, Except.ok ()⟩
    else ⟨[], fs, Except.error Err.fileNotFound⟩

/-- Python list indexing `l[n]`: `IndexError` when out of range. -/
def pyIndex (l : List α) (n : Nat) : M α := fun fs =>
  match l.get? n with
  | some a => ⟨[], fs, Except.ok a⟩
  | none => ⟨[], fs, Except.error Err.indexError⟩

/-- `json.load` followed by `data['RepetitionTime']`. -/
def readJsonRepTime (p : String) : M Rat := fun fs =>
  match fs.getFile p with
  | some (Content.json (some r)) => ⟨[], fs, Except.ok r⟩
  | some (Content.json none) => ⟨[], fs, Except.error Err.keyError⟩
  | some _ => ⟨[], fs, Except.error Err.jsonDecodeError⟩
  | none => ⟨[], fs, Except.error Err.fileNotFound⟩

/-- `nib.load`. -/
def nibLoadM (p : String) : M Image := fun fs =>
  match fs.getFile p with
  | some (Content.image img) => ⟨[], fs, Except.ok img⟩
  | some _ => ⟨[], fs, Except.error Err.imageFileError⟩
  | none => ⟨[], fs, Except.error Err.fileNotFound⟩

/-- The filename extensions nibabel can map to an image format here. -/
def validNibExt (p : String) : Bool :=
  strEndsWith p ".nii.gz" || strEndsWith p ".nii"

/-- `nib.save` / `img.to_filename`: nibabel needs a recognized extension to
pick the output format and raises otherwise. -/
def nibSaveM (img : Image) (p : String) : M Unit := fun fs =>
  if validNibExt p then
    ⟨[Event.nibSave p], fs.setFile p (Content.image img), Except.ok ()⟩
  else ⟨[Event.nibSave p], fs, Except.error Err.imageFileError⟩

/-- Lines 81-84 of the script: load the copied image, overwrite
`hdr['pixdim'][4]` with the repetition time, save it back in place. -/
def nibSetRepTime (p : String) (rt : Rat) : M Unit :=
  M.bind (nibLoadM p) (fun img => nibSaveM { img with pixdim4 := rt } p)

/-- `os.popen("fslval <p> <field>").read().split()`: the token list of the
requested `sto_xyz` row, or `[]` when the tool fails (missing or non-image
file; `os.popen` swallows the error and returns empty output). -/
def fslvalM (p field : String) : M (List Rat) := fun fs =>
  ⟨[Event.shell "fslval" (p ++ " " ++ field)], fs,
    Except.ok
      (match fs.getFile p with
       | some (Content.image img) =>
         if field = "sto_xyz:1" then img.sto1
         else if field = "sto_xyz:2" then img.sto2
         else if field = "sto_xyz:3" then img.sto3
         else []
       | _ => [])⟩

/-- `call(['fslreorient2std src dst'], shell=True)`: writes the reoriented
image at `dst` when `src` is an image; the exit code is ignored, so a
failing invocation is a no-op on the filesystem. -/
def fslreorient2stdM (env : Env) (src dst : String) : M Unit := fun fs =>
  ⟨[Event.shell "fslreorient2std" (src ++ " " ++ dst)],
    (match fs.getFile src with
     | some (Content.image img) => fs.setFile dst (Content.image (env.reorient img))
     | _ => fs),
    Except.ok ()⟩

/-- `call(['mv src dst'], shell=True)`: exit code ignored. -/
def shellMv (src dst : String) : M Unit := fun fs =>
  ⟨[Event.shell "mv" (src ++ " " ++ dst)],
    (match fs.getFile src with
     | some c => (fs.delFile src).setFile dst c
     | none => fs),
    Except.ok ()⟩

/-- `call(['/bin/rm -rf p'], shell=True)`. -/
def shellRm (p : String) : M Unit := fun fs =>
  ⟨[Event.shell "/bin/rm" ("-rf " ++ p)], fs.delFile p, Except.ok ()⟩

/-- `next(os.walk(top))`: `StopIteration` when `top` is not a directory. -/
def nextWalkM (top : String) : M (String × List String × List String) := fun fs =>
  if fs.isdir top then
    ⟨[], fs, Except.ok (top, childNamesD fs top, childNamesF fs top)⟩
  else ⟨[], fs, Except.error Err.stopIteration⟩

/-- A full `os.walk(top)` listing, read from the current filesystem. -/
def walkM (top : String) : M (List (String × List String × List String)) :=
  fun fs => ⟨[], fs, Except.ok (walk fs top)⟩

/-- Sequencing of a Python `for` loop body over a list. -/
def mFor : List α → (α → M Unit) → M Unit
  | [], _ => M.pure ()
  | a :: rest, f => M.bind (f a) (fun _ => mFor rest f)

/-- Destination of the anatomical copy:
`toDir + '/anat/sub-%s_T1w.nii.gz' % subStr`. -/
def anatDst (toDir subStr : String) : String :=
  toDir ++ "/anat/sub-" ++ subStr ++ "_T1w.nii.gz"

/-- Lines 20-24: create `toDir` with its `anat` and `func` subdirectories
when `toDir` does not yet exist. -/
def makedirsPhase (toDir : String) : M Unit := do
  if !(← existsM toDir) then
    mkdirsM toDir
    mkdirsM (toDir ++ "/anat")
    mkdirsM (toDir ++ "/func")

/-- Lines 28-51: copy the first existing anatomical candidate, by the fixed
priority order of the `if`/`elif` cascade, to the BIDS `anat` directory. -/
def anatPhase (fromDir toDir subStr : String) : M Unit := do
  if (← isdirM (fromDir ++ "/anatomical/")) then
    if (← isfileM (fromDir ++ "/anatomical/T1w.nii.gz")) then
      copyfileM (fromDir ++ "/anatomical/T1w.nii.gz") (anatDst toDir subStr)
    else if (← isfileM (fromDir ++ "/anatomical/spgr_defaced.nii.gz")) then
      copyfileM (fromDir ++ "/anatomical/spgr_defaced.nii.gz") (anatDst toDir subStr)
    else if (← isfileM (fromDir ++ "/anatomical/spgr_1_defaced.nii.gz")) then
      copyfileM (fromDir ++ "/anatomical/spgr_1_defaced.nii.gz") (anatDst toDir subStr)
    else if (← isfileM (fromDir ++ "/anatomical/spgr_2_defaced.nii.gz")) then
      copyfileM (fromDir ++ "/anatomical/spgr_2_defaced.nii.gz") (anatDst toDir subStr)
    else if (← isfileM (fromDir ++ "/anatomical/spgr_watershed.nii.gz")) then
      copyfileM (fromDir ++ "/anatomical/spgr_watershed.nii.gz") (anatDst toDir subStr)
    else if (← isfileM (fromDir ++ "/anatomical/watershed_spgr.nii.gz")) then
      copyfileM (fromDir ++ "/anatomical/watershed_spgr.nii.gz") (anatDst toDir subStr)
    else if (← isfileM (fromDir ++ "/anatomical/watershed_spgr_1.nii.gz")) then
      copyfileM (fromDir ++ "/anatomical/watershed_spgr_1.nii.gz") (anatDst toDir subStr)
    else if (← isfileM (fromDir ++ "/anatomical/watershed_spgr_2.nii.gz")) then
      copyfileM (fromDir ++ "/anatomical/watershed_spgr_2.nii.gz") (anatDst toDir subStr)
    else if (← isfileM (fromDir ++ "/anatomical/spgr.nii.gz")) then
      copyfileM (fromDir ++ "/anatomical/spgr.nii.gz") (anatDst toDir subStr)
    else if (← isfileM (fromDir ++ "/anatomical/wspgr_defaced.nii.gz")) then
      copyfileM (fromDir ++ "/anatomical/wspgr_defaced.nii.gz") (anatDst toDir subStr)

/-- `('sub-%s_task-' % subStr) + task + '_bold.json'`. -/
def taskBoldJson (subStr task : String) : String :=
  "sub-" ++ subStr ++ "_task-" ++ task ++ "_bold.json"

/-- `('sub-%s_task-' % subStr) + task + '_bold.nii.gz'`. -/
def taskBoldNii (subStr task : String) : String :=
  "sub-" ++ subStr ++ "_task-" ++ task ++ "_bold.nii.gz"

/-- Lines 67-73: the first inner loop over `files`, reading each JSON
sidecar's `RepetitionTime` and copying it to the BIDS name. -/
def jsonLoop (subRoot subStr task toDir : String) : Rat → List String → M Rat
  | repTime, [] => M.pure repTime
  | repTime, file :: rest => do
    if strEndsWith file ".json" then
      let rt ← readJsonRepTime (join2 subRoot file)
      copyfileM (join2 subRoot file) (toDir ++ "/func/" ++ taskBoldJson subStr task)
      jsonLoop subRoot subStr task toDir rt rest
    else
      jsonLoop subRoot subStr task toDir repTime rest

/-- Lines 75-84: the second inner loop over `files`, copying each NIfTI to
the BIDS name and stamping the repetition time into its header. -/
def niiLoop (subRoot subStr task toDir : String) (repTime : Rat) : List String → M Unit
  | [] => M.pure ()
  | file :: rest => do
    if strEndsWith file ".nii.gz" then
      if (← existsM (join2 subRoot file)) then
        copyfileM (join2 subRoot file) (toDir ++ "/func/" ++ taskBoldNii subStr task)
        nibSetRepTime (toDir ++ "/func/" ++ taskBoldNii subStr task) repTime
      niiLoop subRoot subStr task toDir repTime rest
    else
      niiLoop subRoot subStr task toDir repTime rest

/-- `"%s/sub-%s/func/sub-%s_task-%s_bold.nii.gz" % (toDirRoot, subStr, subStr, task)`. -/
def boldPath (toDirRoot subStr task : String) : String :=
  toDirRoot ++ "/sub-" ++ subStr ++ "/func/sub-" ++ subStr ++ "_task-" ++ task ++ "_bold.nii.gz"

/-- The `_bold_reo.nii.gz` scratch name used by the reorientation. -/
def boldReoPath (toDirRoot subStr task : String) : String :=
  toDirRoot ++ "/sub-" ++ subStr ++ "/func/sub-" ++ subStr ++ "_task-" ++ task ++ "_bold_reo.nii.gz"

/-- The `_bold_orig.nii.gz` name the original is moved to. -/
def boldOrigPath (toDirRoot subStr task : String) : String :=
  toDirRoot ++ "/sub-" ++ subStr ++ "/func/sub-" ++ subStr ++ "_task-" ++ task ++ "_bold_orig.nii.gz"

/-- `brain_vec = np.array([90.0, -126.0, -72.0])`. -/
def brainVec : List Rat := [90, -126, -72]

/-- Lines 106-128: reorient the copied BOLD image with `fslreorient2std`,
re-read its coordinates (only printed), move the original aside, move the
reoriented file onto the original name, and delete the `_orig` file when
both names exist. -/
def reorientBlock (env : Env) (toDirRoot subStr task : String) : M Unit := do
  fslreorient2stdM env (boldPath toDirRoot subStr task) (boldReoPath toDirRoot subStr task)
  let func_reo_coords1 ← fslvalM (boldReoPath toDirRoot subStr task) "sto_xyz:1"
  let func_reo_coords2 ← fslvalM (boldReoPath toDirRoot subStr task) "sto_xyz:2"
  let func_reo_coords3 ← fslvalM (boldReoPath toDirRoot subStr task) "sto_xyz:3"
  let c1 ← pyIndex func_reo_coords1 3
  let c2 ← pyIndex func_reo_coords2 3
  let c3 ← pyIndex func_reo_coords3 3
  let _global_reo_diff := List.zipWith (fun a b => a - b) [c1, c2, c3] brainVec
  shellMv (boldPath toDirRoot subStr task) (boldOrigPath toDirRoot subStr task)
  shellMv (boldReoPath toDirRoot subStr task) (boldPath toDirRoot subStr task)
  if (← existsM (boldPath toDirRoot subStr task)) then
    if (← existsM (boldOrigPath toDirRoot subStr task)) then
      shellRm (boldOrigPath toDirRoot subStr task)

/-- Lines 104-128: `for element in global_diff: if float(element) > 25: ...`.
The reorientation block runs once per exceeding element. -/
def reorientLoop (env : Env) (toDirRoot subStr task : String) : List Rat → M Unit
  | [] => M.pure ()
  | element :: rest => do
    if element > 25 then
      reorientBlock env toDirRoot subStr task
    reorientLoop env toDirRoot subStr task rest

/-- Lines 89-128: read the fourth entry of the three `sto_xyz` rows of the
copied BOLD image via `fslval`, subtract the reference vector, and reorient
when an element of the difference exceeds 25. -/
def coordCheck (env : Env) (toDirRoot subStr task : String) : M Unit := do
  let _command := "ml biology fsl && "
  let func_coords1 ← fslvalM (boldPath toDirRoot subStr task) "sto_xyz:1"
  let func_coords2 ← fslvalM (boldPath toDirRoot subStr task) "sto_xyz:2"
  let func_coords3 ← fslvalM (boldPath toDirRoot subStr task) "sto_xyz:3"
  let c1 ← pyIndex func_coords1 3
  let c2 ← pyIndex func_coords2 3
  let c3 ← pyIndex func_coords3 3
  let coord_array := [c1, c2, c3]
  let global_diff := List.zipWith (fun a b => a - b) coord_array brainVec
  reorientLoop env toDirRoot subStr task global_diff

/-- Lines 59-131: the body of `for task in tasks`. -/
def taskBody (env : Env) (root toDir toDirRoot subStr : String) (task : String) : M Unit := do
  if task = "preprocessed" then
    M.pure ()
  else if (← existsM (join2 root task ++ "/unnormalized")) then
    let triples ← walkM (join2 root task ++ "/unnormalized")
    mFor triples (fun t => do
      let repTime ← jsonLoop t.1 subStr task toDir 0 t.2.2
      niiLoop t.1 subStr task toDir repTime t.2.2)
    coordCheck env toDirRoot subStr task
  else
    M.pure ()

/-- Lines 57-131: when `runName` is `None`, scan the task directories under
`<fromDir>/fmri/` and process each. -/
def funcPhase (env : Env) (fromDir toDir toDirRoot subStr : String) :
    Option String → M Unit
  | some _ => M.pure ()
  | none => do
    let w ← nextWalkM (fromDir ++ "/fmri/")
    mFor w.2.1 (taskBody env w.1 toDir toDirRoot subStr)

/-- `('sub-%s_' % subStr) + runName + '_bold.json'`. -/
def runBoldJson (subStr runName : String) : String :=
  "sub-" ++ subStr ++ "_" ++ runName ++ "_bold.json"

/-- `('sub-%s_' % subStr) + runName + '_bold.nii.gz'`. -/
def runBoldNii (subStr runName : String) : String :=
  "sub-" ++ subStr ++ "_" ++ runName ++ "_bold.nii.gz"

/-- Lines 138-145: JSON loop of the `runName` walk. -/
def runJsonLoop (root subStr runName toDir : String) : Rat → List String → M Rat
  | repTime, [] => M.pure repTime
  | repTime, file :: rest => do
    if strEndsWith file ".json" then
      let rt ← readJsonRepTime (join2 root file)
      copyfileM (join2 root file) (toDir ++ "/func/" ++ runBoldJson subStr runName)
      runJsonLoop root subStr runName toDir rt rest
    else
      runJsonLoop root subStr runName toDir repTime rest

/-- Lines 147-156: NIfTI loop of the `runName` walk (no existence guard
on the source here, unlike the task loop). -/
def runNiiLoop (root subStr runName toDir : String) (repTime : Rat) : List String → M Unit
  | [] => M.pure ()
  | file :: rest => do
    if strEndsWith file ".nii.gz" then
      copyfileM (join2 root file) (toDir ++ "/func/" ++ runBoldNii subStr runName)
      nibSetRepTime (toDir ++ "/func/" ++ runBoldNii subStr runName) repTime
      runNiiLoop root subStr runName toDir repTime rest
    else
      runNiiLoop root subStr runName toDir repTime rest

/-- Lines 133-134: `if runName == None: runName = ''`. -/
def runNameStr : Option String → String
  | none => ""
  | some r => r

/-- Lines 133-160: with `runName` defaulted to `''`, walk
`fromDir + '/fmri/' + runName + 'unnormalized'` and copy its sidecars and
NIfTIs under the `sub-<subStr>_<runName>_bold` names. -/
def runPhase (fromDir toDir subStr : String) (runName0 : Option String) : M Unit := do
  let runName := runNameStr runName0
  let triples ← walkM (fromDir ++ "/fmri/" ++ runName ++ "unnormalized")
  mFor triples (fun t => do
    let repTime ← runJsonLoop t.1 subStr runName toDir 0 t.2.2
    runNiiLoop t.1 subStr runName toDir repTime t.2.2)

/-- `'%s%s%s' % (pid, visitNum, sessionNum)`. -/
def subStrOf (pid visitNum sessionNum : String) : String :=
  pid ++ visitNum ++ sessionNum

/-- `op.join(projDir, 'data', 'imaging', 'participants', pid, 'visit%s', 'session%s')`. -/
def fromDirOf (projDir pid visitNum sessionNum : String) : String :=
  pjoin [projDir, "data", "imaging", "participants", pid,
    "visit" ++ visitNum, "session" ++ sessionNum]

/-- `op.join(projDir, 'data', 'imaging', 'BIDS')`. -/
def toDirRootOf (projDir : String) : String :=
  pjoin [projDir, "data", "imaging", "BIDS"]

/-- `op.join(toDirRoot, 'sub-' + subStr)`. -/
def toDirOf (projDir pid visitNum sessionNum : String) : String :=
  pjoin [toDirRootOf projDir, "sub-" ++ subStrOf pid visitNum sessionNum]

/-- Lines 15-162: `createBIDS(projDir, pid, visitNum, sessionNum, runName)`. -/
def createBIDS (env : Env) (projDir pid visitNum sessionNum : String)
    (runName : Option String) : M (String × String) := do
  let fromDir := fromDirOf projDir pid visitNum sessionNum
  let toDirRoot := toDirRootOf projDir
  let subStr := subStrOf pid visitNum sessionNum
  let toDir := toDirOf projDir pid visitNum sessionNum
  makedirsPhase toDir
  anatPhase fromDir toDir subStr
  breakpointM
  funcPhase env fromDir toDir toDirRoot subStr runName
  runPhase fromDir toDir subStr runName
  M.pure (toDirRoot, subStr)

/-- Lines 175-187: body of the functional-file loop.  Every `.nii.gz` file
has a task name extracted by splitting on `'sub-%s_task-' % subStr` (index 1
raises `IndexError` when the marker is absent) and `'_bold'`; the target
directory is created when missing; files named `brainmask`/`preproc` are
copied under standardized names. -/
def processFuncFile (subStr toDir pipeline root file : String) : M Unit := do
  if strEndsWith file ".nii.gz" then
    let startMark := "sub-" ++ subStr ++ "_task-"
    let endMark := "_bold"
    let fileName := (strSplitOn file ".").headI
    let p1 ← pyIndex (strSplitOn file startMark) 1
    let taskName := (strSplitOn p1 endMark).headI
    let toSubDir := pjoin [toDir, taskName, pipeline]
    if !(← existsM toSubDir) then
      mkdirsM toSubDir
    if strContains fileName "brainmask" then
      copyfileM (join2 root file) (toSubDir ++ "/brainmask.nii.gz")
    else if strContains fileName "preproc" then
      copyfileM (join2 root file) (toSubDir ++ "/I_preproc.nii.gz")
  else
    M.pure ()

/-- Lines 190-201: body of the anatomical-file loop. -/
def processAnatFile (subStr toAnatDir root file : String) : M Unit := do
  if strEndsWith file ".nii.gz" then
    let _startMark := "sub-" ++ subStr ++ "_T1w_"
    let fileName := (strSplitOn file ".").headI
    let toSubDir := pjoin [toAnatDir, "preprocessed"]
    if !(← existsM toSubDir) then
      mkdirsM toSubDir
    if strContains fileName "brainmask" then
      copyfileM (join2 root file) (toSubDir ++ "/T1w_brainmask.nii.gz")
    else if strContains fileName "preproc" then
      copyfileM (join2 root file) (toSubDir ++ "/T1w_preproc.nii.gz")
  else
    M.pure ()

/-- Lines 165-201: `moveToProject`. -/
def moveToProject (projDir pid visitNum sessionNum processedDir pipeline : String)
    (_runName : Option String) : M Unit := do
  let subStr := pid ++ visitNum ++ sessionNum
  let fromDir := pjoin [processedDir, "fmriprep", "sub-" ++ subStr, "func"]
  let fromAnatDir := pjoin [processedDir, "fmriprep", "sub-" ++ subStr, "anat"]
  let toDir := pjoin [projDir, "data", "imaging", "participants", pid,
    "visit" ++ visitNum, "session" ++ sessionNum, "fmri"]
  let toAnatDir := pjoin [projDir, "data", "imaging", "participants", pid,
    "visit" ++ visitNum, "session" ++ sessionNum, "anatomical"]
  let wf ← walkM fromDir
  mFor wf (fun t => mFor t.2.2 (processFuncFile subStr toDir pipeline t.1))
  let wa ← walkM fromAnatDir
  mFor wa (fun t => mFor t.2.2 (processAnatFile subStr toAnatDir t.1))

/-- The output path the script hands to `nib.save`: the input path with its
last two dot-separated segments removed and `_smoothed_<kernel_width>`
appended (`path.split('.')[0:-2]` joined with `'.'`). -/
def smoothOutputPath (path : String) (kernel_width : Nat) : String :=
  joinSep "." ((strSplitOn path ".").dropLast.dropLast) ++ "_smoothed_" ++ toString kernel_width

/-- Lines 218-223: smooth one file with nilearn and save it at the
extension-stripped output path. -/
def smoothOne (env : Env) (kernel_width : Nat) (path : String) : M Unit := do
  let img ← nibLoadM path
  let smoothed := env.smooth img kernel_width
  nibSaveM smoothed (smoothOutputPath path kernel_width)

/-- Lines 203-223: `smooth_preprocessed_data`. -/
def smooth_preprocessed_data (env : Env) (projDir pid visitNum sessionNum : String)
    (kernel_width : Nat) : M Unit := do
  let preprocessed_dir := pjoin [projDir, "data", "imaging", "participants", pid,
    "visit" ++ visitNum, "session" ++ sessionNum, "fmri"]
  let fs ← getFS
  let triples := walk fs preprocessed_dir
  let dirlist := triples.map (fun t => t.1)
  let flist := triples.map (fun t => t.2.2)
  let pairs := (dirlist.map (fun d =>
    (flist.map (fun fl =>
      fl.filterMap (fun name =>
        if fs.existsP (d ++ "/" ++ name) then some (d ++ "/" ++ name) else none))).flatten)).flatten
  let smooth_list := pairs.dedup
  let _kw := kernel_width
  mFor smooth_list (smoothOne env kernel_width)

/-- All events any run of `x` can emit satisfy `P`.  (A structure, so that
`apply` keeps the statement folded.) -/
structure EvPred (P : Event → Prop) (x : M α) : Prop where
  run : ∀ fs : FS, ∀ e ∈ (x fs).events, P e

/-- Constrains the copy events only. -/
def CopyShape (Q : String → String → Prop) : Event → Prop
  | Event.copy src dst => Q src dst
  | _ => True

/-- Constrains the shell events only. -/
def ShellShape (Q : String → String → Prop) : Event → Prop
  | Event.shell prog args => Q prog args
  | _ => True

/-- Constrains the mkdir events only. -/
def MkdirShape (Q : String → Prop) : Event → Prop
  | Event.mkdir p => Q p
  | _ => True

/-- The ten candidate anatomical filenames, in the priority order of the
`if`/`elif` cascade at lines 32-51. -/
def anatCandidates : List String :=
  ["T1w.nii.gz", "spgr_defaced.nii.gz", "spgr_1_defaced.nii.gz", "spgr_2_defaced.nii.gz",
   "spgr_watershed.nii.gz", "watershed_spgr.nii.gz", "watershed_spgr_1.nii.gz",
   "watershed_spgr_2.nii.gz", "spgr.nii.gz", "wspgr_defaced.nii.gz"]

/-- The first candidate (in priority order) that exists on disk. -/
def firstAnatCandidate (fs : FS) (fromDir : String) : Option String :=
  (anatCandidates.map (fun c => fromDir ++ "/anatomical/" ++ c)).find?
    (fun p => fs.isfile p)

/-- An environment whose external tools act as identities (used for
concrete runs). -/
def envId : Env := ⟨fun i => i, fun i _ => i⟩

/-- The FSL command-line programs the script runs. -/
def fslPrograms : List String := ["fslval", "fslreorient2std"]

/-- The non-FSL programs the script runs through the shell. -/
def unixCommands : List String := ["mv", "/bin/rm"]

/-- A zeroed image used by the concrete runs. -/
def imgZero : Image := ⟨[0, 0, 0, 0], [0, 0, 0, 0], [0, 0, 0, 0], 0, 0⟩

/-- The filesystem of the C5 counterexample: the raw layout holds one
functional NIfTI under the runName walk directory `fmri/xunnormalized`. -/
def fsC5 : FS :=
  ⟨["q/data/imaging/participants/a/visit1/session2/fmri/xunnormalized"],
   [("q/data/imaging/participants/a/visit1/session2/fmri/xunnormalized/b.nii.gz",
     Content.image imgZero)]⟩

/-- The filesystem of the C6 counterexample: the fmriprep output directory
holds a `.nii.gz` file without the `sub-<subStr>_task-` marker. -/
def fsC6 : FS :=
  ⟨["d/fmriprep/sub-a12/func"],
   [("d/fmriprep/sub-a12/func/foo.nii.gz", Content.raw 0)]⟩

/-- The filesystem of the C8 failing input: one preprocessed functional
image in the project tree. -/
def fsC8 : FS :=
  ⟨["w/data/imaging/participants/a/visit1/session2/fmri",
    "w/data/imaging/participants/a/visit1/session2/fmri/rest",
    "w/data/imaging/participants/a/visit1/session2/fmri/rest/pipe"],
   [("w/data/imaging/participants/a/visit1/session2/fmri/rest/pipe/I_preproc.nii.gz",
     Content.image imgZero)]⟩

/-- The filesystem of the C2 witness: two anatomical candidates, of which
`spgr_watershed.nii.gz` comes first in priority order. -/
def fsC2 : FS :=
  ⟨["fd/anatomical", "td/anat"],
   [("fd/anatomical/spgr_watershed.nii.gz", Content.raw 0),
    ("fd/anatomical/spgr.nii.gz", Content.raw 1)]⟩

/-- The image of the C1/C9 witness: its first `sto_xyz` row's fourth entry
is 200, far from the reference 90. -/
def imgFar : Image := ⟨[0, 0, 0, 200], [0, 0, 0, -126], [0, 0, 0, -72], 0, 1⟩

/-- The filesystem of the C1/C9 witness: the copied BOLD image in place. -/
def fsC1 : FS := ⟨[], [(boldPath "r" "a12" "rest", Content.image imgFar)]⟩

/-- The filesystem of the C10 witness: `sub-a12` pre-exists without an
`anat` subdirectory while an anatomical candidate is available. -/
def fsC10 : FS :=
  ⟨["q/data/imaging/BIDS/sub-a12",
    "q/data/imaging/participants/a/visit1/session2/anatomical"],
   [("q/data/imaging/participants/a/visit1/session2/anatomical/T1w.nii.gz",
     Content.raw 0)]⟩

/-- The filesystem of the C6 witness: a brainmask output of fmriprep with
the destination directory in place. -/
def fsC6w : FS :=
  ⟨["pr/rest/pipe"],
   [("d/fmriprep/sub-a12/func/sub-a12_task-rest_bold_brainmask.nii.gz", Content.raw 3)]⟩

/-! ### Theorems -/

@[simp] theorem bind_eq (x : M α) (f : α → M β) : x >>= f = M.bind x f := rfl

@[simp] theorem pure_eq (a : α) : (pure a : M α) = M.pure a := rfl

@[simp] theorem run_pure (a : α) (fs : FS) :
    M.pure a fs = ⟨[], fs, Except.ok a⟩ := rfl

theorem run_bind_ok {x : M α} {f : α → M β} {fs fs1 : FS} {ev : List Event}
    {a : α} (h : x fs = ⟨ev, fs1, Except.ok a⟩) :
    M.bind x f fs = ⟨ev ++ (f a fs1).events, (f a fs1).fs, (f a fs1).out⟩ := by
  simp [M.bind, h]

theorem run_bind_err {x : M α} {f : α → M β} {fs fs1 : FS} {ev : List Event}
    {e : Err} (h : x fs = ⟨ev, fs1, Except.error e⟩) :
    M.bind x f fs = ⟨ev, fs1, Except.error e⟩ := by
  simp [M.bind, h]

theorem strData_append (a b : String) : (a ++ b).data = a.data ++ b.data := by
  cases a; cases b; rfl

theorem strEq_of_data {a b : String} (h : a.data = b.data) : a = b := by
  cases a; cases b; exact congrArg String.mk h

theorem strAppend_assoc (a b c : String) : a ++ b ++ c = a ++ (b ++ c) := by
  apply strEq_of_data
  rw [strData_append, strData_append, strData_append, strData_append, List.append_assoc]

theorem strLength_append (a b : String) : (a ++ b).length = a.length + b.length := by
  cases a with
  | mk la =>
    cases b with
    | mk lb => exact List.length_append la lb

theorem dropWhile_all_append {p : Char → Bool} {l r : List Char}
    (h : ∀ c ∈ l, p c) : (l ++ r).dropWhile p = r.dropWhile p := by
  induction l with
  | nil => rfl
  | cons c cs ih =>
    have hc : p c = true := h c (List.mem_cons_self c cs)
    simp only [List.cons_append, List.dropWhile_cons, hc, if_true]
    exact ih (fun x hx => h x (List.mem_cons_of_mem c hx))

/-- `dirname` recovers the directory of `dir ++ "/" ++ name` whenever the
final component holds no slash. -/
theorem dirname_append (d n : String) (h : noSlash n = true) :
    dirname (d ++ "/" ++ n) = d := by
  apply strEq_of_data
  show (((d ++ "/" ++ n).data.reverse.dropWhile (fun c => c ≠ '/')).drop 1).reverse = d.data
  have hdata : (d ++ "/" ++ n).data = d.data ++ '/' :: n.data := by
    rw [strData_append, strData_append, List.append_assoc]
    rfl
  rw [hdata]
  have hrev : (d.data ++ '/' :: n.data).reverse = n.data.reverse ++ '/' :: d.data.reverse := by
    simp
  rw [hrev]
  have hall : ∀ c ∈ n.data.reverse, (fun c => decide (c ≠ '/')) c = true := by
    intro c hc
    exact (List.all_eq_true.mp h) c (List.mem_reverse.mp hc)
  rw [dropWhile_all_append hall]
  simp [List.dropWhile_cons]

/-- Appending distinct continuations to the same string gives distinct
strings when the continuations differ at their first character. -/
theorem strAppend_ne_of_head (a x y : String)
    (hx : x.data.length > 1) (hy : y.data.length > 1)
    (h : x.data.get? 1 ≠ y.data.get? 1) : ∀ r s : String, a ++ x ++ r ≠ a ++ (y ++ s) := by
  intro r s heq
  apply h
  have hdat : a.data ++ (x.data ++ r.data) = a.data ++ (y.data ++ s.data) := by
    have := congrArg String.data heq
    simpa [strData_append] using this
  have h2 : x.data ++ r.data = y.data ++ s.data := List.append_cancel_left hdat
  have hx1 : (x.data ++ r.data).get? 1 = x.data.get? 1 :=
    List.get?_append (by omega)
  have hy1 : (y.data ++ s.data).get? 1 = y.data.get? 1 :=
    List.get?_append (by omega)
  rw [← hx1, ← hy1, h2]

theorem lookup_removeKey_ne {l : List (String × Content)} {p q : String}
    (h : q ≠ p) : (removeKey p l).lookup q = l.lookup q := by
  induction l with
  | nil => rfl
  | cons kv rest ih =>
    by_cases hkv : kv.1 = p
    · have hqb : (q == kv.1) = false := by
        simp only [beq_eq_false_iff_ne, ne_eq]
        rw [hkv]; exact h
      have hqp : (q == p) = false := by
        simp only [beq_eq_false_iff_ne, ne_eq]
        exact h
      simp [removeKey, hkv, List.lookup, hqb, hqp, ih]
    · simp only [removeKey, if_neg hkv]
      by_cases hq : q = kv.1
      · have hqb : (q == kv.1) = true := by simp [hq]
        simp [List.lookup, hqb]
      · have hqb : (q == kv.1) = false := by
          simp only [beq_eq_false_iff_ne, ne_eq]
          exact hq
        simp [List.lookup, hqb, ih]

theorem lookup_removeKey_same {l : List (String × Content)} {p : String} :
    (removeKey p l).lookup p = none := by
  induction l with
  | nil => rfl
  | cons kv rest ih =>
    by_cases hkv : kv.1 = p
    · simpa [removeKey, hkv] using ih
    · have hpb : (p == kv.1) = false := by
        simp only [beq_eq_false_iff_ne, ne_eq]
        exact fun hh => hkv hh.symm
      simpa [removeKey, hkv, List.lookup, hpb] using ih

theorem getFile_setFile_same (fs : FS) (p : String) (c : Content) :
    (fs.setFile p c).getFile p = some c := by
  simp [FS.setFile, FS.getFile, List.lookup]

theorem getFile_setFile_ne (fs : FS) {p q : String} (c : Content) (h : q ≠ p) :
    (fs.setFile p c).getFile q = fs.getFile q := by
  have hqb : (q == p) = false := by
    simp only [beq_eq_false_iff_ne, ne_eq]
    exact h
  simp only [FS.setFile, FS.getFile, List.lookup, hqb]
  exact lookup_removeKey_ne h

theorem getFile_delFile_same (fs : FS) (p : String) :
    (fs.delFile p).getFile p = none := by
  simp only [FS.delFile, FS.getFile]
  exact lookup_removeKey_same

theorem getFile_delFile_ne (fs : FS) {p q : String} (h : q ≠ p) :
    (fs.delFile p).getFile q = fs.getFile q := by
  simp only [FS.delFile, FS.getFile]
  exact lookup_removeKey_ne h

theorem isfile_setFile_same (fs : FS) (p : String) (c : Content) :
    (fs.setFile p c).isfile p = true := by
  simp [FS.isfile, getFile_setFile_same]

theorem dirs_setFile (fs : FS) (p : String) (c : Content) :
    (fs.setFile p c).dirs = fs.dirs := rfl

theorem dirs_delFile (fs : FS) (p : String) : (fs.delFile p).dirs = fs.dirs := rfl

theorem isdir_setFile (fs : FS) (p q : String) (c : Content) :
    (fs.setFile p c).isdir q = fs.isdir q := rfl

theorem evp_pure (P : Event → Prop) (a : α) : EvPred P (M.pure a) := by
  constructor
  intro fs e he
  simp [M.pure] at he

theorem evp_bind {P : Event → Prop} {x : M α} {f : α → M β}
    (hx : EvPred P x) (hf : ∀ a, EvPred P (f a)) : EvPred P (M.bind x f) := by
  constructor
  intro fs e he
  simp only [M.bind] at he
  rcases hres : x fs with ⟨ev, fs1, out⟩
  cases out with
  | ok a =>
    rw [hres] at he
    simp at he
    rcases he with he | he
    · exact hx.run fs e (by rw [hres]; exact he)
    · exact (hf a).run fs1 e he
  | error err =>
    rw [hres] at he
    simp at he
    exact hx.run fs e (by rw [hres]; exact he)

theorem evp_mFor {P : Event → Prop} {l : List α} {f : α → M Unit}
    (h : ∀ a ∈ l, EvPred P (f a)) : EvPred P (mFor l f) := by
  induction l with
  | nil => exact evp_pure P ()
  | cons a rest ih =>
    exact evp_bind (h a (List.mem_cons_self a rest))
      (fun _ => ih (fun b hb => h b (List.mem_cons_of_mem a hb)))

theorem evp_ite {P : Event → Prop} {c : Prop} [Decidable c] {x y : M α}
    (hx : EvPred P x) (hy : EvPred P y) : EvPred P (if c then x else y) := by
  by_cases hc : c
  · rw [if_pos hc]; exact hx
  · rw [if_neg hc]; exact hy

theorem evp_mono {P Q : Event → Prop} {x : M α}
    (h : EvPred P x) (hpq : ∀ e, P e → Q e) : EvPred Q x := by
  constructor
  intro fs e he
  exact hpq e (h.run fs e he)

theorem evp_isdirM (P : Event → Prop) (p : String) : EvPred P (isdirM p) := by
  constructor
  intro fs e he; simp [isdirM] at he

theorem evp_isfileM (P : Event → Prop) (p : String) : EvPred P (isfileM p) := by
  constructor
  intro fs e he; simp [isfileM] at he

theorem evp_existsM (P : Event → Prop) (p : String) : EvPred P (existsM p) := by
  constructor
  intro fs e he; simp [existsM] at he

theorem evp_getFS (P : Event → Prop) : EvPred P getFS := by
  constructor
  intro fs e he; simp [getFS] at he

theorem evp_walkM (P : Event → Prop) (top : String) : EvPred P (walkM top) := by
  constructor
  intro fs e he; simp [walkM] at he

theorem evp_nextWalkM (P : Event → Prop) (top : String) : EvPred P (nextWalkM top) := by
  constructor
  intro fs e he
  simp only [nextWalkM] at he
  by_cases hc : fs.isdir top <;> simp [hc] at he

theorem evp_pyIndex (P : Event → Prop) (l : List α) (n : Nat) :
    EvPred P (pyIndex l n) := by
  constructor
  intro fs e he
  rcases hln : l.get? n with _ | a <;> simp only [pyIndex, hln] at he <;> simp at he

theorem evp_readJsonRepTime (P : Event → Prop) (p : String) :
    EvPred P (readJsonRepTime p) := by
  constructor
  intro fs e he
  rcases hc : fs.getFile p with _ | c
  · simp only [readJsonRepTime, hc] at he
    simp at he
  · rcases c with img | rt | pl
    · simp only [readJsonRepTime, hc] at he
      simp at he
    · rcases rt with _ | r <;> (simp only [readJsonRepTime, hc] at he; simp at he)
    · simp only [readJsonRepTime, hc] at he
      simp at he

theorem evp_nibLoadM (P : Event → Prop) (p : String) : EvPred P (nibLoadM p) := by
  constructor
  intro fs e he
  rcases hc : fs.getFile p with _ | c
  · simp only [nibLoadM, hc] at he
    simp at he
  · rcases c with img | rt | pl <;> (simp only [nibLoadM, hc] at he; simp at he)

theorem evp_copyfileM {P : Event → Prop} (src dst : String)
    (h : P (Event.copy src dst)) : EvPred P (copyfileM src dst) := by
  constructor
  intro fs e he
  rcases hc : fs.getFile src with _ | c
  · simp only [copyfileM, hc] at he
    simp at he
  · by_cases hd : fs.isdir (dirname dst) <;> simp only [copyfileM, hc, hd] at he <;>
      simp at he
    subst he; exact h

theorem evp_mkdirsM {P : Event → Prop} (p : String)
    (h : P (Event.mkdir p)) : EvPred P (mkdirsM p) := by
  constructor
  intro fs e he
  simp [mkdirsM] at he
  subst he; exact h

theorem evp_breakpointM {P : Event → Prop} (h : P Event.breakpoint) :
    EvPred P breakpointM := by
  constructor
  intro fs e he
  simp [breakpointM] at he
  subst he; exact h

theorem evp_nibSaveM {P : Event → Prop} (img : Image) (p : String)
    (h : P (Event.nibSave p)) : EvPred P (nibSaveM img p) := by
  constructor
  intro fs e he
  simp only [nibSaveM] at he
  by_cases hv : validNibExt p <;> simp [hv] at he <;> (subst he; exact h)

theorem evp_nibSetRepTime {P : Event → Prop} (p : String) (rt : Rat)
    (h : P (Event.nibSave p)) : EvPred P (nibSetRepTime p rt) :=
  evp_bind (evp_nibLoadM P p) (fun img => evp_nibSaveM _ p h)

theorem evp_fslvalM {P : Event → Prop} (p field : String)
    (h : P (Event.shell "fslval" (p ++ " " ++ field))) : EvPred P (fslvalM p field) := by
  constructor
  intro fs e he
  simp [fslvalM] at he
  subst he; exact h

theorem evp_fslreorient2stdM {P : Event → Prop} (env : Env) (src dst : String)
    (h : P (Event.shell "fslreorient2std" (src ++ " " ++ dst))) :
    EvPred P (fslreorient2stdM env src dst) := by
  constructor
  intro fs e he
  simp [fslreorient2stdM] at he
  subst he; exact h

theorem evp_shellMv {P : Event → Prop} (src dst : String)
    (h : P (Event.shell "mv" (src ++ " " ++ dst))) : EvPred P (shellMv src dst) := by
  constructor
  intro fs e he
  simp [shellMv] at he
  subst he; exact h

theorem evp_shellRm {P : Event → Prop} (p : String)
    (h : P (Event.shell "/bin/rm" ("-rf " ++ p))) : EvPred P (shellRm p) := by
  constructor
  intro fs e he
  simp [shellRm] at he
  subst he; exact h

theorem makedirsPhase_evp {P : Event → Prop} (toDir : String)
    (h1 : P (Event.mkdir toDir)) (h2 : P (Event.mkdir (toDir ++ "/anat")))
    (h3 : P (Event.mkdir (toDir ++ "/func"))) : EvPred P (makedirsPhase toDir) := by
  unfold makedirsPhase
  simp only [bind_eq, pure_eq]
  apply evp_bind (evp_existsM _ _)
  intro b
  apply evp_ite
  · apply evp_bind (evp_mkdirsM _ h1)
    intro _
    apply evp_bind (evp_mkdirsM _ h2)
    intro _
    exact evp_mkdirsM _ h3
  · exact evp_pure _ _

theorem anatPhase_evp {P : Event → Prop} (fromDir toDir subStr : String)
    (h : ∀ src, P (Event.copy src (anatDst toDir subStr))) :
    EvPred P (anatPhase fromDir toDir subStr) := by
  unfold anatPhase
  simp only [bind_eq, pure_eq]
  apply evp_bind (evp_isdirM _ _)
  intro b
  apply evp_ite
  · apply evp_bind (evp_isfileM _ _)
    intro b1
    apply evp_ite
    · exact evp_copyfileM _ _ (h _)
    · apply evp_bind (evp_isfileM _ _)
      intro b2
      apply evp_ite
      · exact evp_copyfileM _ _ (h _)
      · apply evp_bind (evp_isfileM _ _)
        intro b3
        apply evp_ite
        · exact evp_copyfileM _ _ (h _)
        · apply evp_bind (evp_isfileM _ _)
          intro b4
          apply evp_ite
          · exact evp_copyfileM _ _ (h _)
          · apply evp_bind (evp_isfileM _ _)
            intro b5
            apply evp_ite
            · exact evp_copyfileM _ _ (h _)
            · apply evp_bind (evp_isfileM _ _)
              intro b6
              apply evp_ite
              · exact evp_copyfileM _ _ (h _)
              · apply evp_bind (evp_isfileM _ _)
                intro b7
                apply evp_ite
                · exact evp_copyfileM _ _ (h _)
                · apply evp_bind (evp_isfileM _ _)
                  intro b8
                  apply evp_ite
                  · exact evp_copyfileM _ _ (h _)
                  · apply evp_bind (evp_isfileM _ _)
                    intro b9
                    apply evp_ite
                    · exact evp_copyfileM _ _ (h _)
                    · apply evp_bind (evp_isfileM _ _)
                      intro b10
                      apply evp_ite
                      · exact evp_copyfileM _ _ (h _)
                      · exact evp_pure _ _
  · exact evp_pure _ _

theorem jsonLoop_evp {P : Event → Prop} (subRoot subStr task toDir : String)
    (h : ∀ src, P (Event.copy src (toDir ++ "/func/" ++ taskBoldJson subStr task)))
    (rt : Rat) (files : List String) :
    EvPred P (jsonLoop subRoot subStr task toDir rt files) := by
  induction files generalizing rt with
  | nil => exact evp_pure _ _
  | cons f rest ih =>
    simp only [jsonLoop, bind_eq, pure_eq]
    apply evp_ite
    · apply evp_bind (evp_readJsonRepTime _ _)
      intro rt2
      apply evp_bind (evp_copyfileM _ _ (h _))
      intro _
      exact ih rt2
    · exact ih rt

theorem niiLoop_evp {P : Event → Prop} (subRoot subStr task toDir : String)
    (hc : ∀ src, P (Event.copy src (toDir ++ "/func/" ++ taskBoldNii subStr task)))
    (hn : P (Event.nibSave (toDir ++ "/func/" ++ taskBoldNii subStr task)))
    (rt : Rat) (files : List String) :
    EvPred P (niiLoop subRoot subStr task toDir rt files) := by
  induction files with
  | nil => exact evp_pure _ _
  | cons f rest ih =>
    simp only [niiLoop, bind_eq, pure_eq]
    apply evp_ite
    · apply evp_bind (evp_existsM _ _)
      intro b
      apply evp_ite
      · apply evp_bind (evp_copyfileM _ _ (hc _))
        intro _
        apply evp_bind (evp_nibSetRepTime _ _ hn)
        intro _
        exact ih
      · exact evp_bind (evp_pure _ _) (fun _ => ih)
    · exact ih

theorem reorientBlock_evp {P : Event → Prop} (env : Env) (toDirRoot subStr task : String)
    (hreo : P (Event.shell "fslreorient2std"
      (boldPath toDirRoot subStr task ++ " " ++ boldReoPath toDirRoot subStr task)))
    (hval : ∀ f, P (Event.shell "fslval" (boldReoPath toDirRoot subStr task ++ " " ++ f)))
    (hmv1 : P (Event.shell "mv"
      (boldPath toDirRoot subStr task ++ " " ++ boldOrigPath toDirRoot subStr task)))
    (hmv2 : P (Event.shell "mv"
      (boldReoPath toDirRoot subStr task ++ " " ++ boldPath toDirRoot subStr task)))
    (hrm : P (Event.shell "/bin/rm" ("-rf " ++ boldOrigPath toDirRoot subStr task))) :
    EvPred P (reorientBlock env toDirRoot subStr task) := by
  unfold reorientBlock
  simp only [bind_eq, pure_eq]
  apply evp_bind (evp_fslreorient2stdM _ _ _ hreo)
  intro _
  apply evp_bind (evp_fslvalM _ _ (hval _))
  intro _
  apply evp_bind (evp_fslvalM _ _ (hval _))
  intro _
  apply evp_bind (evp_fslvalM _ _ (hval _))
  intro _
  apply evp_bind (evp_pyIndex _ _ _)
  intro _
  apply evp_bind (evp_pyIndex _ _ _)
  intro _
  apply evp_bind (evp_pyIndex _ _ _)
  intro _
  apply evp_bind (evp_shellMv _ _ hmv1)
  intro _
  apply evp_bind (evp_shellMv _ _ hmv2)
  intro _
  apply evp_bind (evp_existsM _ _)
  intro b
  apply evp_ite
  · apply evp_bind (evp_existsM _ _)
    intro b2
    apply evp_ite
    · exact evp_shellRm _ hrm
    · exact evp_pure _ _
  · exact evp_pure _ _

theorem reorientLoop_evp {P : Event → Prop} (env : Env) (toDirRoot subStr task : String)
    (hreo : P (Event.shell "fslreorient2std"
      (boldPath toDirRoot subStr task ++ " " ++ boldReoPath toDirRoot subStr task)))
    (hval : ∀ f, P (Event.shell "fslval" (boldReoPath toDirRoot subStr task ++ " " ++ f)))
    (hmv1 : P (Event.shell "mv"
      (boldPath toDirRoot subStr task ++ " " ++ boldOrigPath toDirRoot subStr task)))
    (hmv2 : P (Event.shell "mv"
      (boldReoPath toDirRoot subStr task ++ " " ++ boldPath toDirRoot subStr task)))
    (hrm : P (Event.shell "/bin/rm" ("-rf " ++ boldOrigPath toDirRoot subStr task)))
    (l : List Rat) : EvPred P (reorientLoop env toDirRoot subStr task l) := by
  induction l with
  | nil => exact evp_pure _ _
  | cons d rest ih =>
    simp only [reorientLoop, bind_eq, pure_eq]
    apply evp_ite
    · exact evp_bind
        (reorientBlock_evp env toDirRoot subStr task hreo hval hmv1 hmv2 hrm)
        (fun _ => ih)
    · exact evp_bind (evp_pure _ _) (fun _ => ih)

theorem coordCheck_evp {P : Event → Prop} (env : Env) (toDirRoot subStr task : String)
    (hvalb : ∀ f, P (Event.shell "fslval" (boldPath toDirRoot subStr task ++ " " ++ f)))
    (hreo : P (Event.shell "fslreorient2std"
      (boldPath toDirRoot subStr task ++ " " ++ boldReoPath toDirRoot subStr task)))
    (hval : ∀ f, P (Event.shell "fslval" (boldReoPath toDirRoot subStr task ++ " " ++ f)))
    (hmv1 : P (Event.shell "mv"
      (boldPath toDirRoot subStr task ++ " " ++ boldOrigPath toDirRoot subStr task)))
    (hmv2 : P (Event.shell "mv"
      (boldReoPath toDirRoot subStr task ++ " " ++ boldPath toDirRoot subStr task)))
    (hrm : P (Event.shell "/bin/rm" ("-rf " ++ boldOrigPath toDirRoot subStr task))) :
    EvPred P (coordCheck env toDirRoot subStr task) := by
  unfold coordCheck
  simp only [bind_eq, pure_eq]
  apply evp_bind (evp_fslvalM _ _ (hvalb _))
  intro _
  apply evp_bind (evp_fslvalM _ _ (hvalb _))
  intro _
  apply evp_bind (evp_fslvalM _ _ (hvalb _))
  intro _
  apply evp_bind (evp_pyIndex _ _ _)
  intro _
  apply evp_bind (evp_pyIndex _ _ _)
  intro _
  apply evp_bind (evp_pyIndex _ _ _)
  intro _
  exact reorientLoop_evp env toDirRoot subStr task hreo hval hmv1 hmv2 hrm _

/-- The hypotheses letting any `P` cover every event the functional phase can
emit for a given task. -/
theorem taskBody_evp {P : Event → Prop} (env : Env) (root toDir toDirRoot subStr task : String)
    (hj : ∀ src, P (Event.copy src (toDir ++ "/func/" ++ taskBoldJson subStr task)))
    (hc : ∀ src, P (Event.copy src (toDir ++ "/func/" ++ taskBoldNii subStr task)))
    (hn : P (Event.nibSave (toDir ++ "/func/" ++ taskBoldNii subStr task)))
    (hsh : ∀ prog args,
      prog = "fslval" ∨ prog = "fslreorient2std" ∨ prog = "mv" ∨ prog = "/bin/rm" →
      P (Event.shell prog args)) :
    EvPred P (taskBody env root toDir toDirRoot subStr task) := by
  unfold taskBody
  simp only [bind_eq, pure_eq]
  apply evp_ite (evp_pure _ _)
  apply evp_bind (evp_existsM _ _)
  intro b
  apply evp_ite
  · apply evp_bind (evp_walkM _ _)
    intro triples
    apply evp_bind
    · apply evp_mFor
      intro t _
      apply evp_bind (jsonLoop_evp _ _ _ _ hj _ _)
      intro rt
      exact niiLoop_evp _ _ _ _ hc hn rt _
    · intro _
      exact coordCheck_evp env toDirRoot subStr task
        (fun f => hsh _ _ (Or.inl rfl)) (hsh _ _ (Or.inr (Or.inl rfl)))
        (fun f => hsh _ _ (Or.inl rfl)) (hsh _ _ (Or.inr (Or.inr (Or.inl rfl))))
        (hsh _ _ (Or.inr (Or.inr (Or.inl rfl)))) (hsh _ _ (Or.inr (Or.inr (Or.inr rfl))))
  · exact evp_pure _ _

theorem funcPhase_evp {P : Event → Prop} (env : Env) (fromDir toDir toDirRoot subStr : String)
    (runName : Option String)
    (hj : ∀ task src, P (Event.copy src (toDir ++ "/func/" ++ taskBoldJson subStr task)))
    (hc : ∀ task src, P (Event.copy src (toDir ++ "/func/" ++ taskBoldNii subStr task)))
    (hn : ∀ task, P (Event.nibSave (toDir ++ "/func/" ++ taskBoldNii subStr task)))
    (hsh : ∀ prog args,
      prog = "fslval" ∨ prog = "fslreorient2std" ∨ prog = "mv" ∨ prog = "/bin/rm" →
      P (Event.shell prog args)) :
    EvPred P (funcPhase env fromDir toDir toDirRoot subStr runName) := by
  cases runName with
  | some r => exact evp_pure _ _
  | none =>
    simp only [funcPhase, bind_eq, pure_eq]
    apply evp_bind (evp_nextWalkM _ _)
    intro w
    apply evp_mFor
    intro task _
    exact taskBody_evp env _ toDir toDirRoot subStr task (hj task) (hc task) (hn task) hsh

theorem runJsonLoop_evp {P : Event → Prop} (root subStr runName toDir : String)
    (h : ∀ src, P (Event.copy src (toDir ++ "/func/" ++ runBoldJson subStr runName)))
    (rt : Rat) (files : List String) :
    EvPred P (runJsonLoop root subStr runName toDir rt files) := by
  induction files generalizing rt with
  | nil => exact evp_pure _ _
  | cons f rest ih =>
    simp only [runJsonLoop, bind_eq, pure_eq]
    apply evp_ite
    · apply evp_bind (evp_readJsonRepTime _ _)
      intro rt2
      apply evp_bind (evp_copyfileM _ _ (h _))
      intro _
      exact ih rt2
    · exact ih rt

theorem runNiiLoop_evp {P : Event → Prop} (root subStr runName toDir : String)
    (hc : ∀ src, P (Event.copy src (toDir ++ "/func/" ++ runBoldNii subStr runName)))
    (hn : P (Event.nibSave (toDir ++ "/func/" ++ runBoldNii subStr runName)))
    (rt : Rat) (files : List String) :
    EvPred P (runNiiLoop root subStr runName toDir rt files) := by
  induction files with
  | nil => exact evp_pure _ _
  | cons f rest ih =>
    simp only [runNiiLoop, bind_eq, pure_eq]
    apply evp_ite
    · apply evp_bind (evp_copyfileM _ _ (hc _))
      intro _
      apply evp_bind (evp_nibSetRepTime _ _ hn)
      intro _
      exact ih
    · exact ih

theorem runPhase_evp {P : Event → Prop} (fromDir toDir subStr : String)
    (runName0 : Option String)
    (hj : ∀ src, P (Event.copy src
      (toDir ++ "/func/" ++ runBoldJson subStr (runNameStr runName0))))
    (hc : ∀ src, P (Event.copy src
      (toDir ++ "/func/" ++ runBoldNii subStr (runNameStr runName0))))
    (hn : P (Event.nibSave (toDir ++ "/func/" ++ runBoldNii subStr (runNameStr runName0)))) :
    EvPred P (runPhase fromDir toDir subStr runName0) := by
  unfold runPhase
  simp only [bind_eq, pure_eq]
  apply evp_bind (evp_walkM _ _)
  intro triples
  apply evp_mFor
  intro t _
  apply evp_bind (runJsonLoop_evp _ _ _ _ hj _ _)
  intro rt
  exact runNiiLoop_evp _ _ _ _ hc hn rt _

/-- Any predicate holding of every event `createBIDS` can emit holds along
every run. -/
theorem createBIDS_evp {P : Event → Prop} (env : Env)
    (projDir pid visitNum sessionNum : String) (runName : Option String)
    (hbp : P Event.breakpoint)
    (hmk : ∀ p, p = toDirOf projDir pid visitNum sessionNum ∨
      p = toDirOf projDir pid visitNum sessionNum ++ "/anat" ∨
      p = toDirOf projDir pid visitNum sessionNum ++ "/func" → P (Event.mkdir p))
    (ha : ∀ src, P (Event.copy src
      (anatDst (toDirOf projDir pid visitNum sessionNum) (subStrOf pid visitNum sessionNum))))
    (hj : ∀ task src, P (Event.copy src (toDirOf projDir pid visitNum sessionNum ++ "/func/" ++
      taskBoldJson (subStrOf pid visitNum sessionNum) task)))
    (hc : ∀ task src, P (Event.copy src (toDirOf projDir pid visitNum sessionNum ++ "/func/" ++
      taskBoldNii (subStrOf pid visitNum sessionNum) task)))
    (hn : ∀ task, P (Event.nibSave (toDirOf projDir pid visitNum sessionNum ++ "/func/" ++
      taskBoldNii (subStrOf pid visitNum sessionNum) task)))
    (hrj : ∀ src, P (Event.copy src (toDirOf projDir pid visitNum sessionNum ++ "/func/" ++
      runBoldJson (subStrOf pid visitNum sessionNum) (runNameStr runName))))
    (hrc : ∀ src, P (Event.copy src (toDirOf projDir pid visitNum sessionNum ++ "/func/" ++
      runBoldNii (subStrOf pid visitNum sessionNum) (runNameStr runName))))
    (hrn : P (Event.nibSave (toDirOf projDir pid visitNum sessionNum ++ "/func/" ++
      runBoldNii (subStrOf pid visitNum sessionNum) (runNameStr runName))))
    (hsh : ∀ prog args,
      prog = "fslval" ∨ prog = "fslreorient2std" ∨ prog = "mv" ∨ prog = "/bin/rm" →
      P (Event.shell prog args)) :
    EvPred P (createBIDS env projDir pid visitNum sessionNum runName) := by
  unfold createBIDS
  simp only [bind_eq, pure_eq]
  apply evp_bind (makedirsPhase_evp _ (hmk _ (Or.inl rfl)) (hmk _ (Or.inr (Or.inl rfl)))
    (hmk _ (Or.inr (Or.inr rfl))))
  intro _
  apply evp_bind (anatPhase_evp _ _ _ ha)
  intro _
  apply evp_bind (evp_breakpointM hbp)
  intro _
  apply evp_bind (funcPhase_evp env _ _ _ _ _ hj hc hn hsh)
  intro _
  apply evp_bind (runPhase_evp _ _ _ _ hrj hrc hrn)
  intro _
  exact evp_pure _ _

theorem processFuncFile_evp {P : Event → Prop} (subStr toDir pipeline root file : String)
    (hm : ∀ p, P (Event.mkdir p)) (hc : ∀ s d, P (Event.copy s d)) :
    EvPred P (processFuncFile subStr toDir pipeline root file) := by
  unfold processFuncFile
  simp only [bind_eq, pure_eq]
  apply evp_ite
  · apply evp_bind (evp_pyIndex _ _ _)
    intro p1
    apply evp_bind (evp_existsM _ _)
    intro b
    apply evp_ite
    · apply evp_bind (evp_mkdirsM _ (hm _))
      intro _
      apply evp_ite (evp_copyfileM _ _ (hc _ _))
      exact evp_ite (evp_copyfileM _ _ (hc _ _)) (evp_pure _ _)
    · apply evp_bind (evp_pure _ _)
      intro _
      apply evp_ite (evp_copyfileM _ _ (hc _ _))
      exact evp_ite (evp_copyfileM _ _ (hc _ _)) (evp_pure _ _)
  · exact evp_pure _ _

theorem processAnatFile_evp {P : Event → Prop} (subStr toAnatDir root file : String)
    (hm : ∀ p, P (Event.mkdir p)) (hc : ∀ s d, P (Event.copy s d)) :
    EvPred P (processAnatFile subStr toAnatDir root file) := by
  unfold processAnatFile
  simp only [bind_eq, pure_eq]
  apply evp_ite
  · apply evp_bind (evp_existsM _ _)
    intro b
    apply evp_ite
    · apply evp_bind (evp_mkdirsM _ (hm _))
      intro _
      apply evp_ite (evp_copyfileM _ _ (hc _ _))
      exact evp_ite (evp_copyfileM _ _ (hc _ _)) (evp_pure _ _)
    · apply evp_bind (evp_pure _ _)
      intro _
      apply evp_ite (evp_copyfileM _ _ (hc _ _))
      exact evp_ite (evp_copyfileM _ _ (hc _ _)) (evp_pure _ _)
  · exact evp_pure _ _

/-- `moveToProject` only creates directories and copies files: in
particular it runs no shell subprocess. -/
theorem moveToProject_evp {P : Event → Prop}
    (projDir pid visitNum sessionNum processedDir pipeline : String)
    (runName : Option String)
    (hm : ∀ p, P (Event.mkdir p)) (hc : ∀ s d, P (Event.copy s d)) :
    EvPred P (moveToProject projDir pid visitNum sessionNum processedDir pipeline runName) := by
  unfold moveToProject
  simp only [bind_eq, pure_eq]
  apply evp_bind (evp_walkM _ _)
  intro wf
  apply evp_bind
  · apply evp_mFor
    intro t _
    apply evp_mFor
    intro f _
    exact processFuncFile_evp _ _ _ _ _ hm hc
  · intro _
    apply evp_bind (evp_walkM _ _)
    intro wa
    apply evp_mFor
    intro t _
    apply evp_mFor
    intro f _
    exact processAnatFile_evp _ _ _ _ hm hc

/-- `smooth_preprocessed_data` only writes images through nibabel: no
shell subprocess, no copy, no mkdir. -/
theorem smooth_evp {P : Event → Prop} (env : Env)
    (projDir pid visitNum sessionNum : String) (kernel_width : Nat)
    (hn : ∀ p, P (Event.nibSave p)) :
    EvPred P (smooth_preprocessed_data env projDir pid visitNum sessionNum kernel_width) := by
  unfold smooth_preprocessed_data
  simp only [bind_eq, pure_eq]
  apply evp_bind (evp_getFS _)
  intro fs
  apply evp_mFor
  intro path _
  unfold smoothOne
  simp only [bind_eq, pure_eq]
  apply evp_bind (evp_nibLoadM _ _)
  intro img
  exact evp_nibSaveM _ _ (hn _)

/-- `chStarts l` accepts any extension of `l`. -/
theorem chStarts_append (l r : List Char) : chStarts l (l ++ r) = true := by
  induction l with
  | nil => rfl
  | cons c cs ih => simp [chStarts, ih]

/-- A string that fails the concrete-prefix test is not of the form
`A ++ t ++ B` for any `t` and `B`. -/
theorem ne_mid_of_not_started {A dst : String}
    (hA : chStarts A.data dst.data = false) : ∀ t B : String, dst ≠ A ++ t ++ B := by
  intro t B h
  have hd : dst.data = A.data ++ (t.data ++ B.data) := by
    rw [h, strData_append, strData_append, List.append_assoc]
  rw [hd, chStarts_append] at hA
  exact Bool.true_eq_false.mp hA

theorem noSlash_append {a b : String} (ha : noSlash a = true) (hb : noSlash b = true) :
    noSlash (a ++ b) = true := by
  simp only [noSlash, strData_append, List.all_append]
  simp only [noSlash] at ha hb
  rw [ha, hb]
  rfl

/-- Splitting off the last component of the anatomical destination path. -/
theorem anatDst_eq_concat (toDir subStr : String) :
    anatDst toDir subStr = (toDir ++ "/anat") ++ "/" ++ ("sub-" ++ subStr ++ "_T1w.nii.gz") := by
  apply strEq_of_data
  simp only [anatDst, strData_append, List.append_assoc]
  rfl

theorem dirname_anatDst (toDir subStr : String) (hsub : noSlash subStr = true) :
    dirname (anatDst toDir subStr) = toDir ++ "/anat" := by
  rw [anatDst_eq_concat]
  apply dirname_append
  exact noSlash_append (noSlash_append (by rfl) hsub) (by rfl)

/-- The anatomical destination never collides with a functional
destination. -/
theorem anatDst_ne_funcDst (toDir subStr r : String) :
    anatDst toDir subStr ≠ toDir ++ "/func/" ++ r := by
  unfold anatDst
  rw [strAppend_assoc (toDir ++ "/anat/sub-") subStr "_T1w.nii.gz",
    strAppend_assoc toDir "/func/" r]
  exact strAppend_ne_of_head toDir "/anat/sub-" "/func/" (by decide) (by decide) (by decide)
    (subStr ++ "_T1w.nii.gz") r

/-- `os.makedirs` guarded by the existence check never raises. -/
theorem makedirsPhase_out_ok (toDir : String) (fs : FS) :
    (makedirsPhase toDir fs).out = Except.ok () := by
  by_cases hb : fs.existsP toDir <;>
    simp [makedirsPhase, bind_eq, pure_eq, M.bind, M.pure, existsM, mkdirsM, hb]

theorem breakpointM_run (fs : FS) :
    breakpointM fs = ⟨[Event.breakpoint], fs, Except.ok ()⟩ := rfl

/-- C2: when `<fromDir>/anatomical/` exists, `createBIDS`'s anatomical phase
copies exactly one file — the first existing candidate in the priority order
T1w, spgr_defaced, spgr_1_defaced, spgr_2_defaced, spgr_watershed,
watershed_spgr, watershed_spgr_1, watershed_spgr_2, spgr, wspgr_defaced —
to `<toDir>/anat/sub-<subStr>_T1w.nii.gz`; when no candidate exists, or the
anatomical directory is absent, it copies nothing. -/
theorem claim_C2 (fromDir toDir subStr : String) (fs : FS)
    (hsub : noSlash subStr = true)
    (hdst : fs.isdir (toDir ++ "/anat") = true) :
    (fs.isdir (fromDir ++ "/anatomical/") = false →
      anatPhase fromDir toDir subStr fs = ⟨[], fs, Except.ok ()⟩)
    ∧ (fs.isdir (fromDir ++ "/anatomical/") = true →
      (anatPhase fromDir toDir subStr fs).events =
        (match firstAnatCandidate fs fromDir with
          | some c => [Event.copy c (anatDst toDir subStr)]
          | none => [])
      ∧ (anatPhase fromDir toDir subStr fs).out = Except.ok ()) := by
  have e1 : (fromDir ++ "/anatomical/") ++ "T1w.nii.gz" =
      fromDir ++ "/anatomical/T1w.nii.gz" := by rw [strAppend_assoc]; rfl
  have e2 : (fromDir ++ "/anatomical/") ++ "spgr_defaced.nii.gz" =
      fromDir ++ "/anatomical/spgr_defaced.nii.gz" := by rw [strAppend_assoc]; rfl
  have e3 : (fromDir ++ "/anatomical/") ++ "spgr_1_defaced.nii.gz" =
      fromDir ++ "/anatomical/spgr_1_defaced.nii.gz" := by rw [strAppend_assoc]; rfl
  have e4 : (fromDir ++ "/anatomical/") ++ "spgr_2_defaced.nii.gz" =
      fromDir ++ "/anatomical/spgr_2_defaced.nii.gz" := by rw [strAppend_assoc]; rfl
  have e5 : (fromDir ++ "/anatomical/") ++ "spgr_watershed.nii.gz" =
      fromDir ++ "/anatomical/spgr_watershed.nii.gz" := by rw [strAppend_assoc]; rfl
  have e6 : (fromDir ++ "/anatomical/") ++ "watershed_spgr.nii.gz" =
      fromDir ++ "/anatomical/watershed_spgr.nii.gz" := by rw [strAppend_assoc]; rfl
  have e7 : (fromDir ++ "/anatomical/") ++ "watershed_spgr_1.nii.gz" =
      fromDir ++ "/anatomical/watershed_spgr_1.nii.gz" := by rw [strAppend_assoc]; rfl
  have e8 : (fromDir ++ "/anatomical/") ++ "watershed_spgr_2.nii.gz" =
      fromDir ++ "/anatomical/watershed_spgr_2.nii.gz" := by rw [strAppend_assoc]; rfl
  have e9 : (fromDir ++ "/anatomical/") ++ "spgr.nii.gz" =
      fromDir ++ "/anatomical/spgr.nii.gz" := by rw [strAppend_assoc]; rfl
  have e10 : (fromDir ++ "/anatomical/") ++ "wspgr_defaced.nii.gz" =
      fromDir ++ "/anatomical/wspgr_defaced.nii.gz" := by rw [strAppend_assoc]; rfl
  have hdirn : fs.isdir (dirname (anatDst toDir subStr)) = true := by
    rw [dirname_anatDst toDir subStr hsub]; exact hdst
  constructor
  · intro hdir
    simp [anatPhase, bind_eq, pure_eq, M.bind, M.pure, isdirM, hdir]
  · intro hdir
    by_cases h1 : fs.isfile (fromDir ++ "/anatomical/T1w.nii.gz")
    · obtain ⟨cnt, hgf⟩ := Option.isSome_iff_exists.mp h1
      constructor <;> simp [anatPhase, bind_eq, pure_eq, M.bind, M.pure, isdirM, isfileM,
        hdir, h1, hgf, copyfileM, hdirn, firstAnatCandidate, anatCandidates,
        e1, e2, e3, e4, e5, e6, e7, e8, e9, e10]
    · by_cases h2 : fs.isfile (fromDir ++ "/anatomical/spgr_defaced.nii.gz")
      · obtain ⟨cnt, hgf⟩ := Option.isSome_iff_exists.mp h2
        constructor <;> simp [anatPhase, bind_eq, pure_eq, M.bind, M.pure, isdirM, isfileM,
          hdir, h1, h2, hgf, copyfileM, hdirn, firstAnatCandidate, anatCandidates,
          e1, e2, e3, e4, e5, e6, e7, e8, e9, e10]
      · by_cases h3 : fs.isfile (fromDir ++ "/anatomical/spgr_1_defaced.nii.gz")
        · obtain ⟨cnt, hgf⟩ := Option.isSome_iff_exists.mp h3
          constructor <;> simp [anatPhase, bind_eq, pure_eq, M.bind, M.pure, isdirM, isfileM,
            hdir, h1, h2, h3, hgf, copyfileM, hdirn, firstAnatCandidate, anatCandidates,
            e1, e2, e3, e4, e5, e6, e7, e8, e9, e10]
        · by_cases h4 : fs.isfile (fromDir ++ "/anatomical/spgr_2_defaced.nii.gz")
          · obtain ⟨cnt, hgf⟩ := Option.isSome_iff_exists.mp h4
            constructor <;> simp [anatPhase, bind_eq, pure_eq, M.bind, M.pure, isdirM,
              isfileM, hdir, h1, h2, h3, h4, hgf, copyfileM, hdirn, firstAnatCandidate,
              anatCandidates, e1, e2, e3, e4, e5, e6, e7, e8, e9, e10]
          · by_cases h5 : fs.isfile (fromDir ++ "/anatomical/spgr_watershed.nii.gz")
            · obtain ⟨cnt, hgf⟩ := Option.isSome_iff_exists.mp h5
              constructor <;> simp [anatPhase, bind_eq, pure_eq, M.bind, M.pure, isdirM,
                isfileM, hdir, h1, h2, h3, h4, h5, hgf, copyfileM, hdirn,
                firstAnatCandidate, anatCandidates, e1, e2, e3, e4, e5, e6, e7, e8, e9, e10]
            · by_cases h6 : fs.isfile (fromDir ++ "/anatomical/watershed_spgr.nii.gz")
              · obtain ⟨cnt, hgf⟩ := Option.isSome_iff_exists.mp h6
                constructor <;> simp [anatPhase, bind_eq, pure_eq, M.bind, M.pure, isdirM,
                  isfileM, hdir, h1, h2, h3, h4, h5, h6, hgf, copyfileM, hdirn,
                  firstAnatCandidate, anatCandidates, e1, e2, e3, e4, e5, e6, e7, e8, e9, e10]
              · by_cases h7 : fs.isfile (fromDir ++ "/anatomical/watershed_spgr_1.nii.gz")
                · obtain ⟨cnt, hgf⟩ := Option.isSome_iff_exists.mp h7
                  constructor <;> simp [anatPhase, bind_eq, pure_eq, M.bind, M.pure, isdirM,
                    isfileM, hdir, h1, h2, h3, h4, h5, h6, h7, hgf, copyfileM, hdirn,
                    firstAnatCandidate, anatCandidates, e1, e2, e3, e4, e5, e6, e7, e8, e9, e10]
                · by_cases h8 : fs.isfile (fromDir ++ "/anatomical/watershed_spgr_2.nii.gz")
                  · obtain ⟨cnt, hgf⟩ := Option.isSome_iff_exists.mp h8
                    constructor <;> simp [anatPhase, bind_eq, pure_eq, M.bind, M.pure,
                      isdirM, isfileM, hdir, h1, h2, h3, h4, h5, h6, h7, h8, hgf, copyfileM,
                      hdirn, firstAnatCandidate, anatCandidates,
                      e1, e2, e3, e4, e5, e6, e7, e8, e9, e10]
                  · by_cases h9 : fs.isfile (fromDir ++ "/anatomical/spgr.nii.gz")
                    · obtain ⟨cnt, hgf⟩ := Option.isSome_iff_exists.mp h9
                      constructor <;> simp [anatPhase, bind_eq, pure_eq, M.bind, M.pure,
                        isdirM, isfileM, hdir, h1, h2, h3, h4, h5, h6, h7, h8, h9, hgf,
                        copyfileM, hdirn, firstAnatCandidate, anatCandidates,
                        e1, e2, e3, e4, e5, e6, e7, e8, e9, e10]
                    · by_cases h10 : fs.isfile (fromDir ++ "/anatomical/wspgr_defaced.nii.gz")
                      · obtain ⟨cnt, hgf⟩ := Option.isSome_iff_exists.mp h10
                        constructor <;> simp [anatPhase, bind_eq, pure_eq, M.bind, M.pure,
                          isdirM, isfileM, hdir, h1, h2, h3, h4, h5, h6, h7, h8, h9, h10,
                          hgf, copyfileM, hdirn, firstAnatCandidate, anatCandidates,
                          e1, e2, e3, e4, e5, e6, e7, e8, e9, e10]
                      · constructor <;> simp [anatPhase, bind_eq, pure_eq, M.bind, M.pure,
                          isdirM, isfileM, hdir, h1, h2, h3, h4, h5, h6, h7, h8, h9, h10,
                          firstAnatCandidate, anatCandidates,
                          e1, e2, e3, e4, e5, e6, e7, e8, e9, e10]

theorem events_bind_ok {x : M α} {f : α → M β} {fs fs1 : FS} {ev : List Event} {a : α}
    (h : x fs = ⟨ev, fs1, Except.ok a⟩) :
    (M.bind x f fs).events = ev ++ (f a fs1).events := by
  rw [run_bind_ok h]

theorem fs_bind_ok {x : M α} {f : α → M β} {fs fs1 : FS} {ev : List Event} {a : α}
    (h : x fs = ⟨ev, fs1, Except.ok a⟩) :
    (M.bind x f fs).fs = (f a fs1).fs := by
  rw [run_bind_ok h]

theorem out_bind_ok {x : M α} {f : α → M β} {fs fs1 : FS} {ev : List Event} {a : α}
    (h : x fs = ⟨ev, fs1, Except.ok a⟩) :
    (M.bind x f fs).out = (f a fs1).out := by
  rw [run_bind_ok h]

theorem mem_events_bind {x : M α} {f : α → M β} {fs : FS} {e : Event}
    (h : e ∈ (M.bind x f fs).events) :
    e ∈ (x fs).events ∨ ∃ a fs1, e ∈ (f a fs1).events := by
  rcases hx : x fs with ⟨ev, fs1, out⟩
  cases out with
  | ok a =>
    rw [events_bind_ok hx] at h
    rcases List.mem_append.mp h with h | h
    · exact Or.inl h
    · exact Or.inr ⟨a, fs1, h⟩
  | error err =>
    rw [run_bind_err hx] at h
    exact Or.inl h

theorem mem_events_bind_left {x : M α} {f : α → M β} {fs : FS} {e : Event}
    (h : e ∈ (x fs).events) : e ∈ (M.bind x f fs).events := by
  rcases hx : x fs with ⟨ev, fs1, out⟩
  rw [hx] at h
  cases out with
  | ok a =>
    rw [events_bind_ok hx]
    exact List.mem_append_left _ h
  | error err =>
    rw [run_bind_err hx]
    exact h

theorem strAppend_left_cancel {a x y : String} (h : a ++ x = a ++ y) : x = y := by
  have hd := congrArg String.data h
  rw [strData_append, strData_append] at hd
  exact strEq_of_data (List.append_cancel_left hd)

theorem strAppend_right_ne (a : String) {x y : String} (h : x ≠ y) : a ++ x ≠ a ++ y :=
  fun he => h (strAppend_left_cancel he)

theorem boldPath_ne_reo (toDirRoot subStr task : String) :
    boldPath toDirRoot subStr task ≠ boldReoPath toDirRoot subStr task := by
  unfold boldPath boldReoPath
  exact strAppend_right_ne _ (by decide)

theorem boldPath_ne_orig (toDirRoot subStr task : String) :
    boldPath toDirRoot subStr task ≠ boldOrigPath toDirRoot subStr task := by
  unfold boldPath boldOrigPath
  exact strAppend_right_ne _ (by decide)

theorem boldReo_ne_orig (toDirRoot subStr task : String) :
    boldReoPath toDirRoot subStr task ≠ boldOrigPath toDirRoot subStr task := by
  unfold boldReoPath boldOrigPath
  exact strAppend_right_ne _ (by decide)

theorem makedirsPhase_skip (toDir : String) (fs : FS) (h : fs.existsP toDir = true) :
    makedirsPhase toDir fs = ⟨[], fs, Except.ok ()⟩ := by
  simp [makedirsPhase, bind_eq, pure_eq, M.bind, M.pure, existsM, h]

theorem makedirsPhase_create (toDir : String) (fs : FS) (h : fs.existsP toDir = false) :
    makedirsPhase toDir fs =
      ⟨[Event.mkdir toDir, Event.mkdir (toDir ++ "/anat"), Event.mkdir (toDir ++ "/func")],
       ((fs.addDirs (ancestorDirs toDir)).addDirs
          (ancestorDirs (toDir ++ "/anat"))).addDirs (ancestorDirs (toDir ++ "/func")),
       Except.ok ()⟩ := by
  simp [makedirsPhase, bind_eq, pure_eq, M.bind, M.pure, existsM, mkdirsM, h]

theorem phases_decomp (env : Env) (F T R S : String) (runName : Option String) (fs : FS)
    (hanat : (anatPhase F T S ((makedirsPhase T fs).fs)).out = Except.ok ()) :
    ∃ t1 t2,
      ((M.bind (makedirsPhase T) (fun _ => M.bind (anatPhase F T S) (fun _ =>
        M.bind breakpointM (fun _ => M.bind (funcPhase env F T R S runName) (fun _ =>
        M.bind (runPhase F T S runName) (fun _ => M.pure (R, S))))))) fs).events =
        t1 ++ Event.breakpoint :: t2
      ∧ (∀ e ∈ t1, ∀ src r, e ≠ Event.copy src (T ++ "/func/" ++ r))
      ∧ (∀ e ∈ t2, ∀ src, e ≠ Event.copy src (anatDst T S)) := by
  have hmkout := makedirsPhase_out_ok T fs
  rcases hmkr : makedirsPhase T fs with ⟨ev1, fs1, o1⟩
  rw [hmkr] at hmkout
  simp only at hmkout
  subst hmkout
  have hanat1 : (anatPhase F T S fs1).out = Except.ok () := by
    rw [hmkr] at hanat
    exact hanat
  rcases hanr : anatPhase F T S fs1 with ⟨ev2, fs2, o2⟩
  rw [hanr] at hanat1
  simp only at hanat1
  subst hanat1
  rw [events_bind_ok hmkr, events_bind_ok hanr, events_bind_ok (breakpointM_run fs2)]
  refine ⟨ev1 ++ ev2,
    (M.bind (funcPhase env F T R S runName)
      (fun _ => M.bind (runPhase F T S runName) (fun _ => M.pure (R, S))) fs2).events,
    by simp, ?_, ?_⟩
  · intro e he src r
    have hmkP : ∀ p, (fun ev => ∀ src r, ev ≠ Event.copy src (T ++ "/func/" ++ r))
        (Event.mkdir p) := by
      intro p src0 r0 h
      exact Event.noConfusion h
    have hanP : ∀ src0, (fun ev => ∀ src r, ev ≠ Event.copy src (T ++ "/func/" ++ r))
        (Event.copy src0 (anatDst T S)) := by
      intro src0 src1 r1 h
      injection h with h1 h2
      exact anatDst_ne_funcDst T S r1 h2
    have hmkE : EvPred (fun ev => ∀ src r, ev ≠ Event.copy src (T ++ "/func/" ++ r))
        (makedirsPhase T) :=
      makedirsPhase_evp T (hmkP T) (hmkP (T ++ "/anat")) (hmkP (T ++ "/func"))
    have hanE : EvPred (fun ev => ∀ src r, ev ≠ Event.copy src (T ++ "/func/" ++ r))
        (anatPhase F T S) := anatPhase_evp F T S hanP
    rcases List.mem_append.mp he with h | h
    · exact hmkE.run fs e (by rw [hmkr]; exact h) src r
    · exact hanE.run fs1 e (by rw [hanr]; exact h) src r
  · intro e he src
    have hfuncP : ∀ X : String, ∀ src0 : String,
        (fun ev => ∀ src1, ev ≠ Event.copy src1 (anatDst T S))
          (Event.copy src0 (T ++ "/func/" ++ X)) := by
      intro X src0 src1 h
      injection h with h1 h2
      exact anatDst_ne_funcDst T S X h2.symm
    have hnibP : ∀ X : String,
        (fun ev => ∀ src1, ev ≠ Event.copy src1 (anatDst T S)) (Event.nibSave X) := by
      intro X src1 h
      exact Event.noConfusion h
    have hshP : ∀ prog args,
        prog = "fslval" ∨ prog = "fslreorient2std" ∨ prog = "mv" ∨ prog = "/bin/rm" →
        (fun ev => ∀ src1, ev ≠ Event.copy src1 (anatDst T S)) (Event.shell prog args) := by
      intro prog args _ src1 h
      exact Event.noConfusion h
    have hfE : EvPred (fun ev => ∀ src1, ev ≠ Event.copy src1 (anatDst T S))
        (funcPhase env F T R S runName) :=
      funcPhase_evp env F T R S runName (fun task src0 => hfuncP _ src0)
        (fun task src0 => hfuncP _ src0) (fun task => hnibP _) hshP
    have hrE : EvPred (fun ev => ∀ src1, ev ≠ Event.copy src1 (anatDst T S))
        (runPhase F T S runName) :=
      runPhase_evp F T S runName (fun src0 => hfuncP _ src0) (fun src0 => hfuncP _ src0)
        (hnibP _)
    rcases mem_events_bind he with h | ⟨a, fs3, h⟩
    · exact hfE.run fs2 e h src
    · rcases mem_events_bind h with h2 | ⟨a2, fs4, h2⟩
      · exact hrE.run fs3 e h2 src
      · simp [M.pure] at h2

/-- C4 (amended): whenever the directory-creation and anatomical-copy phases
raise no exception, every run of `createBIDS` emits the `pdb.set_trace()`
breakpoint after the anatomical copies (no anatomical copy follows it) and
before any functional copy (no functional copy precedes it).  The original
claim's unconditional form is refuted by `claim_C4_counterexample`. -/
theorem claim_C4 (env : Env) (projDir pid visitNum sessionNum : String)
    (runName : Option String) (fs : FS)
    (hanat : (anatPhase (fromDirOf projDir pid visitNum sessionNum)
      (toDirOf projDir pid visitNum sessionNum) (subStrOf pid visitNum sessionNum)
      ((makedirsPhase (toDirOf projDir pid visitNum sessionNum) fs).fs)).out =
        Except.ok ()) :
    ∃ t1 t2,
      (createBIDS env projDir pid visitNum sessionNum runName fs).events =
        t1 ++ Event.breakpoint :: t2
      ∧ (∀ e ∈ t1, ∀ src r,
          e ≠ Event.copy src (toDirOf projDir pid visitNum sessionNum ++ "/func/" ++ r))
      ∧ (∀ e ∈ t2, ∀ src,
          e ≠ Event.copy src (anatDst (toDirOf projDir pid visitNum sessionNum)
            (subStrOf pid visitNum sessionNum))) :=
  phases_decomp env (fromDirOf projDir pid visitNum sessionNum)
    (toDirOf projDir pid visitNum sessionNum) (toDirRootOf projDir)
    (subStrOf pid visitNum sessionNum) runName fs hanat

/-- C3 (amended): every scan of a source file or directory in `createBIDS`
and `moveToProject` that finds the source missing is skipped silently — the
anatomical directory via `os.path.isdir`, each task's `unnormalized`
directory via `op.exists`, the runName walk and both `moveToProject` walks
via `os.walk`'s empty iteration — with one exception: the
`next(os.walk(fromDir + '/fmri/'))` scan raises `StopIteration` when
`<fromDir>/fmri/` is missing and `runName` is `None`
(see `claim_C3_counterexample`). -/
theorem claim_C3 :
    (∀ fromDir toDir subStr (fs : FS), fs.isdir (fromDir ++ "/anatomical/") = false →
      anatPhase fromDir toDir subStr fs = ⟨[], fs, Except.ok ()⟩)
    ∧ (∀ env root toDir toDirRoot subStr task (fs : FS), task ≠ "preprocessed" →
        fs.existsP (join2 root task ++ "/unnormalized") = false →
        taskBody env root toDir toDirRoot subStr task fs = ⟨[], fs, Except.ok ()⟩)
    ∧ (∀ env fromDir toDir toDirRoot subStr (fs : FS),
        fs.isdir (fromDir ++ "/fmri/") = false →
        (funcPhase env fromDir toDir toDirRoot subStr none fs).out =
          Except.error Err.stopIteration)
    ∧ (∀ fromDir toDir subStr runName0 (fs : FS),
        fs.isdir (fromDir ++ "/fmri/" ++ runNameStr runName0 ++ "unnormalized") = false →
        runPhase fromDir toDir subStr runName0 fs = ⟨[], fs, Except.ok ()⟩)
    ∧ (∀ projDir pid visitNum sessionNum processedDir pipeline runName (fs : FS),
        fs.isdir (pjoin [processedDir, "fmriprep",
          "sub-" ++ (pid ++ visitNum ++ sessionNum), "func"]) = false →
        fs.isdir (pjoin [processedDir, "fmriprep",
          "sub-" ++ (pid ++ visitNum ++ sessionNum), "anat"]) = false →
        moveToProject projDir pid visitNum sessionNum processedDir pipeline runName fs =
          ⟨[], fs, Except.ok ()⟩) := by
  refine ⟨?_, ?_, ?_, ?_, ?_⟩
  · intro fromDir toDir subStr fs h
    simp [anatPhase, bind_eq, pure_eq, M.bind, M.pure, isdirM, h]
  · intro env root toDir toDirRoot subStr task fs htask hex
    simp [taskBody, bind_eq, pure_eq, M.bind, M.pure, existsM, htask, hex]
  · intro env fromDir toDir toDirRoot subStr fs h
    simp [funcPhase, bind_eq, pure_eq, M.bind, M.pure, nextWalkM, h]
  · intro fromDir toDir subStr runName0 fs h
    simp [runPhase, bind_eq, pure_eq, M.bind, M.pure, walkM, walk, walkFuel, h, mFor]
  · intro projDir pid visitNum sessionNum processedDir pipeline runName fs h1 h2
    simp [moveToProject, bind_eq, pure_eq, M.bind, M.pure, walkM, walk, walkFuel,
      h1, h2, mFor]

/-- C3 counterexample: on an empty filesystem (so that
`<fromDir>/fmri/` is missing) `createBIDS` with `runName = None` raises
`StopIteration` from `next(os.walk(...))` instead of skipping the missing
directory. -/
theorem claim_C3_counterexample :
    (createBIDS envId "p" "a" "1" "2" none ⟨[], []⟩).out =
      Except.error Err.stopIteration := rfl

/-- C4 counterexample: when `sub-<subStr>` already exists without an `anat`
subdirectory and an anatomical candidate is present, the anatomical copy
raises before the breakpoint line is ever reached, so the breakpoint is not
on an unconditional path. -/
theorem claim_C4_counterexample :
    Event.breakpoint ∉
      (createBIDS envId "q" "a" "1" "2" (some "x")
        ⟨["q/data/imaging/BIDS/sub-a12",
          "q/data/imaging/participants/a/visit1/session2/anatomical"],
         [("q/data/imaging/participants/a/visit1/session2/anatomical/T1w.nii.gz",
           Content.raw 0)]⟩).events
    ∧ (createBIDS envId "q" "a" "1" "2" (some "x")
        ⟨["q/data/imaging/BIDS/sub-a12",
          "q/data/imaging/participants/a/visit1/session2/anatomical"],
         [("q/data/imaging/participants/a/visit1/session2/anatomical/T1w.nii.gz",
           Content.raw 0)]⟩).out = Except.error Err.fileNotFound := by
  constructor
  · decide
  · rfl

/-- C4 witness input: a fresh filesystem, where the anatomical phase cannot
fail, so the breakpoint decomposition applies. -/
theorem claim_C4_witness :
    ∃ t1 t2,
      (createBIDS envId "q" "a" "1" "2" (some "x") ⟨[], []⟩).events =
        t1 ++ Event.breakpoint :: t2
      ∧ (∀ e ∈ t1, ∀ src r,
          e ≠ Event.copy src (toDirOf "q" "a" "1" "2" ++ "/func/" ++ r))
      ∧ (∀ e ∈ t2, ∀ src,
          e ≠ Event.copy src (anatDst (toDirOf "q" "a" "1" "2") (subStrOf "a" "1" "2"))) :=
  claim_C4 envId "q" "a" "1" "2" (some "x") ⟨[], []⟩ (by rfl)

/-- C10: the `anat` and `func` subdirectories are created exactly when
`sub-<subStr>` does not already exist; no other `mkdir` ever happens in
`createBIDS`; and when `sub-<subStr>` pre-exists without an `anat`
subdirectory, the anatomical copy targets a non-existent directory and
raises instead of creating it. -/
theorem claim_C10 :
    (∀ toDir (fs : FS), fs.existsP toDir = true →
      makedirsPhase toDir fs = ⟨[], fs, Except.ok ()⟩)
    ∧ (∀ toDir (fs : FS), fs.existsP toDir = false →
      makedirsPhase toDir fs =
        ⟨[Event.mkdir toDir, Event.mkdir (toDir ++ "/anat"),
          Event.mkdir (toDir ++ "/func")],
         ((fs.addDirs (ancestorDirs toDir)).addDirs
            (ancestorDirs (toDir ++ "/anat"))).addDirs (ancestorDirs (toDir ++ "/func")),
         Except.ok ()⟩)
    ∧ (∀ env projDir pid visitNum sessionNum runName,
        EvPred (MkdirShape (fun p => p = toDirOf projDir pid visitNum sessionNum ∨
          p = toDirOf projDir pid visitNum sessionNum ++ "/anat" ∨
          p = toDirOf projDir pid visitNum sessionNum ++ "/func"))
          (createBIDS env projDir pid visitNum sessionNum runName))
    ∧ (∀ env projDir pid visitNum sessionNum runName (fs : FS),
        fs.existsP (toDirOf projDir pid visitNum sessionNum) = true →
        ∀ p, Event.mkdir p ∉ (createBIDS env projDir pid visitNum sessionNum runName fs).events)
    ∧ (∀ env projDir pid visitNum sessionNum runName (fs : FS),
        noSlash (subStrOf pid visitNum sessionNum) = true →
        fs.existsP (toDirOf projDir pid visitNum sessionNum) = true →
        fs.isdir (toDirOf projDir pid visitNum sessionNum ++ "/anat") = false →
        fs.isdir (fromDirOf projDir pid visitNum sessionNum ++ "/anatomical/") = true →
        fs.isfile (fromDirOf projDir pid visitNum sessionNum ++
          "/anatomical/T1w.nii.gz") = true →
        createBIDS env projDir pid visitNum sessionNum runName fs =
          ⟨[], fs, Except.error Err.fileNotFound⟩
        ∧ fs.isdir (dirname (anatDst (toDirOf projDir pid visitNum sessionNum)
            (subStrOf pid visitNum sessionNum))) = false) := by
  refine ⟨makedirsPhase_skip, makedirsPhase_create, ?_, ?_, ?_⟩
  · intro env projDir pid visitNum sessionNum runName
    exact createBIDS_evp env projDir pid visitNum sessionNum runName True.intro
      (fun p hp => hp) (fun src => True.intro) (fun task src => True.intro)
      (fun task src => True.intro) (fun task => True.intro) (fun src => True.intro)
      (fun src => True.intro) True.intro (fun prog args _ => True.intro)
  · intro env projDir pid visitNum sessionNum runName fs hex p hmem
    have hmem2 : Event.mkdir p ∈
        ((M.bind (makedirsPhase (toDirOf projDir pid visitNum sessionNum)) (fun _ =>
          M.bind (anatPhase (fromDirOf projDir pid visitNum sessionNum)
            (toDirOf projDir pid visitNum sessionNum) (subStrOf pid visitNum sessionNum))
            (fun _ => M.bind breakpointM (fun _ =>
              M.bind (funcPhase env (fromDirOf projDir pid visitNum sessionNum)
                (toDirOf projDir pid visitNum sessionNum) (toDirRootOf projDir)
                (subStrOf pid visitNum sessionNum) runName) (fun _ =>
                M.bind (runPhase (fromDirOf projDir pid visitNum sessionNum)
                  (toDirOf projDir pid visitNum sessionNum)
                  (subStrOf pid visitNum sessionNum) runName) (fun _ =>
                  M.pure (toDirRootOf projDir, subStrOf pid visitNum sessionNum))))))) fs).events :=
      hmem
    have hNoMk : ∀ {x : M Unit}, EvPred (MkdirShape (fun _ => False)) x →
        ∀ fs1, Event.mkdir p ∉ (x fs1).events := by
      intro x hx fs1 hmm
      exact hx.run fs1 _ hmm
    rcases mem_events_bind hmem2 with h | ⟨a, fs1, h⟩
    · rw [makedirsPhase_skip _ fs hex] at h
      simp at h
    · rcases mem_events_bind h with h | ⟨b, fs2, h⟩
      · exact hNoMk (anatPhase_evp _ _ _ (fun src => True.intro)) fs1 h
      · rcases mem_events_bind h with h | ⟨c, fs3, h⟩
        · simp [breakpointM] at h
        · rcases mem_events_bind h with h | ⟨d, fs4, h⟩
          · exact hNoMk (funcPhase_evp env _ _ _ _ runName (fun task src => True.intro)
              (fun task src => True.intro) (fun task => True.intro)
              (fun prog args _ => True.intro)) fs3 h
          · rcases mem_events_bind h with h | ⟨g, fs5, h⟩
            · exact hNoMk (runPhase_evp _ _ _ runName (fun src => True.intro)
                (fun src => True.intro) True.intro) fs4 h
            · simp [M.pure] at h
  · intro env projDir pid visitNum sessionNum runName fs hsub hex hanat hdir h1
    have hdirn : fs.isdir (dirname (anatDst (toDirOf projDir pid visitNum sessionNum)
        (subStrOf pid visitNum sessionNum))) = false := by
      rw [dirname_anatDst _ _ hsub]
      exact hanat
    refine ⟨?_, hdirn⟩
    obtain ⟨cnt, hgf⟩ := Option.isSome_iff_exists.mp h1
    have hmk := makedirsPhase_skip (toDirOf projDir pid visitNum sessionNum) fs hex
    have hanrun : anatPhase (fromDirOf projDir pid visitNum sessionNum)
        (toDirOf projDir pid visitNum sessionNum) (subStrOf pid visitNum sessionNum) fs =
        ⟨[], fs, Except.error Err.fileNotFound⟩ := by
      simp [anatPhase, bind_eq, pure_eq, M.bind, M.pure, isdirM, isfileM, hdir, h1,
        copyfileM, hgf, hdirn]
    have hrun : (M.bind (makedirsPhase (toDirOf projDir pid visitNum sessionNum)) (fun _ =>
        M.bind (anatPhase (fromDirOf projDir pid visitNum sessionNum)
          (toDirOf projDir pid visitNum sessionNum) (subStrOf pid visitNum sessionNum))
          (fun _ => M.bind breakpointM (fun _ =>
            M.bind (funcPhase env (fromDirOf projDir pid visitNum sessionNum)
              (toDirOf projDir pid visitNum sessionNum) (toDirRootOf projDir)
              (subStrOf pid visitNum sessionNum) runName) (fun _ =>
              M.bind (runPhase (fromDirOf projDir pid visitNum sessionNum)
                (toDirOf projDir pid visitNum sessionNum)
                (subStrOf pid visitNum sessionNum) runName) (fun _ =>
                M.pure (toDirRootOf projDir, subStrOf pid visitNum sessionNum)))))) fs) =
        ⟨[], fs, Except.error Err.fileNotFound⟩ := by
      rw [run_bind_ok hmk, run_bind_err hanrun]
      rfl
    exact hrun

/-- The first event of the reorientation block is the `fslreorient2std`
invocation itself. -/
theorem reorientBlock_head (env : Env) (T S K : String) (fs : FS) :
    ∃ rest, (reorientBlock env T S K fs).events =
      Event.shell "fslreorient2std" (boldPath T S K ++ " " ++ boldReoPath T S K) :: rest := by
  have hstep : fslreorient2stdM env (boldPath T S K) (boldReoPath T S K) fs =
      ⟨[Event.shell "fslreorient2std" (boldPath T S K ++ " " ++ boldReoPath T S K)],
       (match fs.getFile (boldPath T S K) with
        | some (Content.image img) =>
          fs.setFile (boldReoPath T S K) (Content.image (env.reorient img))
        | _ => fs),
       Except.ok ()⟩ := rfl
  unfold reorientBlock
  simp only [bind_eq]
  rw [events_bind_ok hstep]
  exact ⟨_, rfl⟩

/-- When no element of the difference vector exceeds 25 the loop does
nothing at all. -/
theorem reorientLoop_nop (env : Env) (T S K : String) (l : List Rat)
    (h : ∀ d ∈ l, ¬ (d > 25)) : ∀ fs : FS,
    reorientLoop env T S K l fs = ⟨[], fs, Except.ok ()⟩ := by
  induction l with
  | nil => intro fs; rfl
  | cons d rest ih =>
    intro fs
    have hd : ¬ (d > 25) := h d (List.mem_cons_self d rest)
    have ihr := ih (fun x hx => h x (List.mem_cons_of_mem d hx))
    simp [reorientLoop, bind_eq, pure_eq, M.bind, M.pure, hd, ihr fs]

/-- When some element exceeds 25 the loop invokes `fslreorient2std`. -/
theorem reorientLoop_mem (env : Env) (T S K : String) (l : List Rat)
    (hex : ∃ d ∈ l, d > 25) : ∀ fs : FS,
    ∃ s, Event.shell "fslreorient2std" s ∈ (reorientLoop env T S K l fs).events := by
  induction l with
  | nil => simp at hex
  | cons d rest ih =>
    intro fs
    by_cases hd : d > 25
    · obtain ⟨tl, htl⟩ := reorientBlock_head env T S K fs
      refine ⟨boldPath T S K ++ " " ++ boldReoPath T S K, ?_⟩
      have hm : Event.shell "fslreorient2std" (boldPath T S K ++ " " ++ boldReoPath T S K) ∈
          (reorientBlock env T S K fs).events := by
        rw [htl]; exact List.mem_cons_self _ _
      simp only [reorientLoop, bind_eq, if_pos hd]
      exact mem_events_bind_left hm
    · rcases hex with ⟨d0, hmem0, hgt⟩
      rcases List.mem_cons.mp hmem0 with rfl | hmem0
      · exact absurd hgt hd
      · have := ih ⟨d0, hmem0, hgt⟩ fs
        simpa [reorientLoop, bind_eq, pure_eq, M.bind, M.pure, hd] using this

/-- C1: with a functional BOLD image in place under the BIDS name (the
`fslval` rows being those of its `sto_xyz` matrix), `fslreorient2std` is
invoked iff some element of `coords - (90, -126, -72)` exceeds 25, and
when no element exceeds 25 the filesystem — in particular the copied
image — is left unchanged. -/
theorem claim_C1 (env : Env) (toDirRoot subStr task : String) (fs : FS) (img : Image)
    (a b c : Rat)
    (himg : fs.getFile (boldPath toDirRoot subStr task) = some (Content.image img))
    (h1 : img.sto1[3]? = some a) (h2 : img.sto2[3]? = some b)
    (h3 : img.sto3[3]? = some c) :
    ((∃ s, Event.shell "fslreorient2std" s ∈
        (coordCheck env toDirRoot subStr task fs).events) ↔
      (a - 90 > 25 ∨ b - (-126) > 25 ∨ c - (-72) > 25))
    ∧ (¬ (a - 90 > 25 ∨ b - (-126) > 25 ∨ c - (-72) > 25) →
        (coordCheck env toDirRoot subStr task fs).fs = fs) := by
  have hrun : coordCheck env toDirRoot subStr task fs =
      ⟨[Event.shell "fslval" (boldPath toDirRoot subStr task ++ " " ++ "sto_xyz:1"),
        Event.shell "fslval" (boldPath toDirRoot subStr task ++ " " ++ "sto_xyz:2"),
        Event.shell "fslval" (boldPath toDirRoot subStr task ++ " " ++ "sto_xyz:3")] ++
        (reorientLoop env toDirRoot subStr task
          [a - 90, b - (-126), c - (-72)] fs).events,
       (reorientLoop env toDirRoot subStr task [a - 90, b - (-126), c - (-72)] fs).fs,
       (reorientLoop env toDirRoot subStr task [a - 90, b - (-126), c - (-72)] fs).out⟩ := by
    simp [coordCheck, bind_eq, M.bind, fslvalM, pyIndex, himg, h1, h2, h3, brainVec,
      List.zipWith]
  constructor
  · constructor
    · intro hev
      by_contra hcond
      push_neg at hcond
      have hnone : ∀ d ∈ [a - 90, b - (-126), c - (-72)], ¬ (d > 25) := by
        intro d hd
        rcases List.mem_cons.mp hd with rfl | hd
        · exact not_lt.mpr hcond.1
        rcases List.mem_cons.mp hd with rfl | hd
        · exact not_lt.mpr hcond.2.1
        rcases List.mem_cons.mp hd with rfl | hd
        · exact not_lt.mpr hcond.2.2
        · simp at hd
      obtain ⟨s, hmem⟩ := hev
      rw [hrun, reorientLoop_nop env toDirRoot subStr task _ hnone fs] at hmem
      simp at hmem
    · intro hcond
      have hex : ∃ d ∈ [a - 90, b - (-126), c - (-72)], d > 25 := by
        rcases hcond with h | h | h
        · exact ⟨a - 90, by simp, h⟩
        · exact ⟨b - (-126), by simp, h⟩
        · exact ⟨c - (-72), by simp, h⟩
      obtain ⟨s, hmem⟩ := reorientLoop_mem env toDirRoot subStr task _ hex fs
      refine ⟨s, ?_⟩
      rw [hrun]
      exact List.mem_append_right _ hmem
  · intro hcond
    push_neg at hcond
    have hnone : ∀ d ∈ [a - 90, b - (-126), c - (-72)], ¬ (d > 25) := by
      intro d hd
      rcases List.mem_cons.mp hd with rfl | hd
      · exact not_lt.mpr hcond.1
      rcases List.mem_cons.mp hd with rfl | hd
      · exact not_lt.mpr hcond.2.1
      rcases List.mem_cons.mp hd with rfl | hd
      · exact not_lt.mpr hcond.2.2
      · simp at hd
    rw [hrun, reorientLoop_nop env toDirRoot subStr task _ hnone fs]

/-- C9: after a successful reorientation (the tool produced a reoriented
image whose re-read coordinate rows still index), the `mv`/`mv`/`rm`
sequence leaves the reoriented image under the original
`..._bold.nii.gz` name, deletes `..._bold_orig.nii.gz` (both names existed
at the check), removes the `_reo` scratch file, and touches no other path —
so the pre-reorientation image data survives nowhere in the BIDS tree. -/
theorem claim_C9 (env : Env) (toDirRoot subStr task : String) (fs : FS) (img : Image)
    (d1 d2 d3 : Rat)
    (himg : fs.getFile (boldPath toDirRoot subStr task) = some (Content.image img))
    (hr1 : (env.reorient img).sto1[3]? = some d1)
    (hr2 : (env.reorient img).sto2[3]? = some d2)
    (hr3 : (env.reorient img).sto3[3]? = some d3) :
    (reorientBlock env toDirRoot subStr task fs).out = Except.ok ()
    ∧ (reorientBlock env toDirRoot subStr task fs).fs.getFile
        (boldPath toDirRoot subStr task) = some (Content.image (env.reorient img))
    ∧ (reorientBlock env toDirRoot subStr task fs).fs.getFile
        (boldOrigPath toDirRoot subStr task) = none
    ∧ (reorientBlock env toDirRoot subStr task fs).fs.getFile
        (boldReoPath toDirRoot subStr task) = none
    ∧ (∀ q, q ≠ boldPath toDirRoot subStr task → q ≠ boldReoPath toDirRoot subStr task →
        q ≠ boldOrigPath toDirRoot subStr task →
        (reorientBlock env toDirRoot subStr task fs).fs.getFile q = fs.getFile q) := by
  have hne1 : boldPath toDirRoot subStr task ≠ boldReoPath toDirRoot subStr task :=
    boldPath_ne_reo toDirRoot subStr task
  have hne2 : boldPath toDirRoot subStr task ≠ boldOrigPath toDirRoot subStr task :=
    boldPath_ne_orig toDirRoot subStr task
  have hne3 : boldReoPath toDirRoot subStr task ≠ boldOrigPath toDirRoot subStr task :=
    boldReo_ne_orig toDirRoot subStr task
  have hne1s := hne1.symm
  have hne2s := hne2.symm
  have hne3s := hne3.symm
  -- the intermediate filesystems
  set p := boldPath toDirRoot subStr task with hp
  set preo := boldReoPath toDirRoot subStr task with hpreo
  set porig := boldOrigPath toDirRoot subStr task with hporig
  have hfs1 : fslreorient2stdM env p preo fs =
      ⟨[Event.shell "fslreorient2std" (p ++ " " ++ preo)],
       fs.setFile preo (Content.image (env.reorient img)), Except.ok ()⟩ := by
    simp [fslreorient2stdM, himg]
  have hget1p : (fs.setFile preo (Content.image (env.reorient img))).getFile p =
      some (Content.image img) := by
    rw [getFile_setFile_ne _ _ hne1]
    exact himg
  have hget1reo : (fs.setFile preo (Content.image (env.reorient img))).getFile preo =
      some (Content.image (env.reorient img)) := getFile_setFile_same _ _ _
  set fs1 := fs.setFile preo (Content.image (env.reorient img)) with hfs1d
  set fs2 := (fs1.delFile p).setFile porig (Content.image img) with hfs2d
  set fs3 := (fs2.delFile preo).setFile p (Content.image (env.reorient img)) with hfs3d
  have hmv1 : shellMv p porig fs1 =
      ⟨[Event.shell "mv" (p ++ " " ++ porig)], fs2, Except.ok ()⟩ := by
    simp [shellMv, hget1p, hfs2d]
  have hget2reo : fs2.getFile preo = some (Content.image (env.reorient img)) := by
    rw [hfs2d, getFile_setFile_ne _ _ hne3, getFile_delFile_ne _ hne1s]
    exact hget1reo
  have hmv2 : shellMv preo p fs2 =
      ⟨[Event.shell "mv" (preo ++ " " ++ p)], fs3, Except.ok ()⟩ := by
    simp [shellMv, hget2reo, hfs3d]
  have hget3p : fs3.getFile p = some (Content.image (env.reorient img)) :=
    getFile_setFile_same _ _ _
  have hget3orig : fs3.getFile porig = some (Content.image img) := by
    rw [hfs3d, getFile_setFile_ne _ _ hne2s, getFile_delFile_ne _ hne3s, hfs2d]
    exact getFile_setFile_same _ _ _
  have hex3p : fs3.existsP p = true := by
    simp [FS.existsP, FS.isfile, hget3p]
  have hex3orig : fs3.existsP porig = true := by
    simp [FS.existsP, FS.isfile, hget3orig]
  have hrun : reorientBlock env toDirRoot subStr task fs =
      ⟨[Event.shell "fslreorient2std" (p ++ " " ++ preo),
        Event.shell "fslval" (preo ++ " " ++ "sto_xyz:1"),
        Event.shell "fslval" (preo ++ " " ++ "sto_xyz:2"),
        Event.shell "fslval" (preo ++ " " ++ "sto_xyz:3"),
        Event.shell "mv" (p ++ " " ++ porig),
        Event.shell "mv" (preo ++ " " ++ p),
        Event.shell "/bin/rm" ("-rf " ++ porig)],
       fs3.delFile porig, Except.ok ()⟩ := by
    simp only [reorientBlock, bind_eq, pure_eq]
    rw [run_bind_ok hfs1]
    simp only [← hp, ← hpreo, ← hporig, ← hfs1d]
    simp [M.bind, M.pure, fslvalM, pyIndex, hget1reo, hr1, hr2, hr3, hmv1, hmv2,
      existsM, hex3p, hex3orig, shellRm, ← hfs2d, ← hfs3d]
  rw [hrun]
  refine ⟨rfl, ?_, ?_, ?_, ?_⟩
  · show (fs3.delFile porig).getFile p = _
    rw [getFile_delFile_ne _ hne2]
    exact hget3p
  · exact getFile_delFile_same _ _
  · show (fs3.delFile porig).getFile preo = _
    rw [getFile_delFile_ne _ hne3, hfs3d, getFile_setFile_ne _ _ hne1s]
    exact getFile_delFile_same _ _
  · intro q hqp hqreo hqorig
    show (fs3.delFile porig).getFile q = _
    rw [getFile_delFile_ne _ hqorig, hfs3d, getFile_setFile_ne _ _ hqp,
      getFile_delFile_ne _ hqreo, hfs2d, getFile_setFile_ne _ _ hqorig,
      getFile_delFile_ne _ hqp, hfs1d, getFile_setFile_ne _ _ hqreo]

/-- C7: every shell subprocess run anywhere in the two source files uses a
program from `fslPrograms` or `unixCommands` — so `fslval` and
`fslreorient2std` are the only FSL tools invoked — and no part of
`createBIDS` other than the coordinate check, nor `moveToProject`, nor
`smooth_preprocessed_data`, spawns any shell subprocess at all. -/
theorem claim_C7 :
    (∀ env projDir pid visitNum sessionNum runName,
      EvPred (ShellShape (fun prog _ => prog ∈ fslPrograms ∨ prog ∈ unixCommands))
        (createBIDS env projDir pid visitNum sessionNum runName))
    ∧ (∀ toDir, EvPred (ShellShape (fun _ _ => False)) (makedirsPhase toDir))
    ∧ (∀ fromDir toDir subStr,
        EvPred (ShellShape (fun _ _ => False)) (anatPhase fromDir toDir subStr))
    ∧ (∀ fromDir toDir subStr runName,
        EvPred (ShellShape (fun _ _ => False)) (runPhase fromDir toDir subStr runName))
    ∧ (∀ env toDirRoot subStr task,
        EvPred (ShellShape (fun prog _ => prog ∈ fslPrograms ∨ prog ∈ unixCommands))
          (coordCheck env toDirRoot subStr task))
    ∧ (∀ projDir pid visitNum sessionNum processedDir pipeline runName,
        EvPred (ShellShape (fun _ _ => False))
          (moveToProject projDir pid visitNum sessionNum processedDir pipeline runName))
    ∧ (∀ env projDir pid visitNum sessionNum kernel_width,
        EvPred (ShellShape (fun _ _ => False))
          (smooth_preprocessed_data env projDir pid visitNum sessionNum kernel_width)) := by
  have hsh : ∀ Q : String → String → Prop, ∀ prog args : String,
      prog = "fslval" ∨ prog = "fslreorient2std" ∨ prog = "mv" ∨ prog = "/bin/rm" →
      (prog ∈ fslPrograms ∨ prog ∈ unixCommands) := by
    intro Q prog args hp
    rcases hp with rfl | rfl | rfl | rfl <;> simp [fslPrograms, unixCommands]
  refine ⟨?_, ?_, ?_, ?_, ?_, ?_, ?_⟩
  · intro env projDir pid visitNum sessionNum runName
    exact createBIDS_evp env projDir pid visitNum sessionNum runName True.intro
      (fun p _ => True.intro) (fun src => True.intro) (fun task src => True.intro)
      (fun task src => True.intro) (fun task => True.intro) (fun src => True.intro)
      (fun src => True.intro) True.intro
      (fun prog args hp => hsh (fun _ _ => True) prog args hp)
  · intro toDir
    exact makedirsPhase_evp toDir True.intro True.intro True.intro
  · intro fromDir toDir subStr
    exact anatPhase_evp fromDir toDir subStr (fun src => True.intro)
  · intro fromDir toDir subStr runName
    exact runPhase_evp fromDir toDir subStr runName (fun src => True.intro)
      (fun src => True.intro) True.intro
  · intro env toDirRoot subStr task
    exact coordCheck_evp env toDirRoot subStr task
      (fun f => Or.inl (by simp [fslPrograms]))
      (Or.inl (by simp [fslPrograms]))
      (fun f => Or.inl (by simp [fslPrograms]))
      (Or.inr (by simp [unixCommands]))
      (Or.inr (by simp [unixCommands]))
      (Or.inr (by simp [unixCommands]))
  · intro projDir pid visitNum sessionNum processedDir pipeline runName
    exact moveToProject_evp projDir pid visitNum sessionNum processedDir pipeline runName
      (fun p => True.intro) (fun sc d => True.intro)
  · intro env projDir pid visitNum sessionNum kernel_width
    exact smooth_evp env projDir pid visitNum sessionNum kernel_width
      (fun p => True.intro)

/-- C5 (amended): every file `createBIDS` copies lands in the subject's
`anat` or `func` directory: the anatomical image at
`<toDir>/anat/sub-<subStr>_T1w.nii.gz`, the task-scan copies at
`<toDir>/func/sub-<subStr>_task-<task>_bold.nii.gz` / `_bold.json`, and the
runName-walk copies at `<toDir>/func/sub-<subStr>_<runName>_bold.nii.gz` /
`_bold.json` (with `runName` defaulted to `''`); immediately after any
successful `shutil.copyfile` the destination file exists.  The original
claim, which allowed only the `_task-` names for functional files, fails on
the runName walk: see `claim_C5_counterexample`. -/
theorem claim_C5 :
    (∀ env projDir pid visitNum sessionNum runName,
      EvPred (CopyShape (fun _ dst =>
        dst = anatDst (toDirOf projDir pid visitNum sessionNum)
          (subStrOf pid visitNum sessionNum) ∨
        (∃ task,
          dst = toDirOf projDir pid visitNum sessionNum ++ "/func/" ++
            taskBoldNii (subStrOf pid visitNum sessionNum) task ∨
          dst = toDirOf projDir pid visitNum sessionNum ++ "/func/" ++
            taskBoldJson (subStrOf pid visitNum sessionNum) task) ∨
        dst = toDirOf projDir pid visitNum sessionNum ++ "/func/" ++
          runBoldNii (subStrOf pid visitNum sessionNum) (runNameStr runName) ∨
        dst = toDirOf projDir pid visitNum sessionNum ++ "/func/" ++
          runBoldJson (subStrOf pid visitNum sessionNum) (runNameStr runName)))
        (createBIDS env projDir pid visitNum sessionNum runName))
    ∧ (∀ (fs : FS) src dst, (copyfileM src dst fs).out = Except.ok () →
        ((copyfileM src dst fs).fs.isfile dst) = true) := by
  constructor
  · intro env projDir pid visitNum sessionNum runName
    exact createBIDS_evp env projDir pid visitNum sessionNum runName True.intro
      (fun p _ => True.intro) (fun src => Or.inl rfl)
      (fun task src => Or.inr (Or.inl ⟨task, Or.inr rfl⟩))
      (fun task src => Or.inr (Or.inl ⟨task, Or.inl rfl⟩))
      (fun task => True.intro) (fun src => Or.inr (Or.inr (Or.inr rfl)))
      (fun src => Or.inr (Or.inr (Or.inl rfl))) True.intro
      (fun prog args _ => True.intro)
  · intro fs src dst hok
    rcases hgf : fs.getFile src with _ | c
    · simp [copyfileM, hgf] at hok
    · by_cases hd : fs.isdir (dirname dst)
      · simp [copyfileM, hgf, hd, isfile_setFile_same]
      · simp [copyfileM, hgf, hd] at hok

/-- C5 counterexample: with `runName = 'x'`, `createBIDS` copies a
functional file to `sub-a12_x_bold.nii.gz`, which matches neither the
claimed `sub-<subStr>_task-<task>_bold.*` functional pattern nor the
anatomical destination. -/
theorem claim_C5_counterexample :
    Event.copy "q/data/imaging/participants/a/visit1/session2/fmri/xunnormalized/b.nii.gz"
      "q/data/imaging/BIDS/sub-a12/func/sub-a12_x_bold.nii.gz"
      ∈ (createBIDS envId "q" "a" "1" "2" (some "x") fsC5).events
    ∧ (∀ t B : String, "q/data/imaging/BIDS/sub-a12/func/sub-a12_x_bold.nii.gz" ≠
        "q/data/imaging/BIDS/sub-a12/func/sub-a12_task-" ++ t ++ B)
    ∧ "q/data/imaging/BIDS/sub-a12/func/sub-a12_x_bold.nii.gz" ≠
        anatDst (toDirOf "q" "a" "1" "2") (subStrOf "a" "1" "2") :=
  ⟨by decide, ne_mid_of_not_started (by decide), by decide⟩

theorem self_mem_ancestorDirs (p : String) : p ∈ ancestorDirs p := by
  simp [ancestorDirs]

theorem isdir_addDirs_self (fs : FS) (p : String) (hstrip : stripSlash p = p) :
    (fs.addDirs (ancestorDirs p)).isdir p = true := by
  simp only [FS.addDirs, FS.isdir, hstrip]
  have : p ∈ ancestorDirs p ++ fs.dirs := List.mem_append_left _ (self_mem_ancestorDirs p)
  simpa using this

/-- C6 (amended): for every `.nii.gz` file in the walked `fmriprep` output,
`moveToProject`'s loop body extracts the task name by splitting on
`'sub-<subStr>_task-'` and `'_bold'`, creates the destination directory when
missing, and copies the file as `brainmask.nii.gz` when its base name
contains `'brainmask'`, else as `I_preproc.nii.gz` when it contains
`'preproc'`, else copies nothing; anatomical files go analogously to
`T1w_brainmask.nii.gz` / `T1w_preproc.nii.gz` under
`anatomical/preprocessed`.  A `.nii.gz` file without the
`'sub-<subStr>_task-'` marker makes the index `[1]` raise `IndexError`
instead of being skipped: the original claim fails there
(see `claim_C6_counterexample`). -/
theorem claim_C6 :
    (∀ subStr toDir pipeline root file (fs : FS),
      strEndsWith file ".nii.gz" = false →
      processFuncFile subStr toDir pipeline root file fs = ⟨[], fs, Except.ok ()⟩)
    ∧ (∀ subStr toDir pipeline root file (fs : FS),
      strEndsWith file ".nii.gz" = true →
      (strSplitOn file ("sub-" ++ subStr ++ "_task-"))[1]? = none →
      processFuncFile subStr toDir pipeline root file fs =
        ⟨[], fs, Except.error Err.indexError⟩)
    ∧ (∀ subStr toDir pipeline root file (fs : FS) p1 cnt,
      strEndsWith file ".nii.gz" = true →
      (strSplitOn file ("sub-" ++ subStr ++ "_task-"))[1]? = some p1 →
      fs.getFile (join2 root file) = some cnt →
      fs.isdir (pjoin [toDir, (strSplitOn p1 "_bold").headI, pipeline]) = true →
      strContains ((strSplitOn file ".").headI) "brainmask" = true →
      processFuncFile subStr toDir pipeline root file fs =
        ⟨[Event.copy (join2 root file)
            (pjoin [toDir, (strSplitOn p1 "_bold").headI, pipeline] ++ "/brainmask.nii.gz")],
         fs.setFile (pjoin [toDir, (strSplitOn p1 "_bold").headI, pipeline] ++
            "/brainmask.nii.gz") cnt,
         Except.ok ()⟩)
    ∧ (∀ subStr toDir pipeline root file (fs : FS) p1 cnt,
      strEndsWith file ".nii.gz" = true →
      (strSplitOn file ("sub-" ++ subStr ++ "_task-"))[1]? = some p1 →
      fs.getFile (join2 root file) = some cnt →
      fs.isdir (pjoin [toDir, (strSplitOn p1 "_bold").headI, pipeline]) = true →
      strContains ((strSplitOn file ".").headI) "brainmask" = false →
      strContains ((strSplitOn file ".").headI) "preproc" = true →
      processFuncFile subStr toDir pipeline root file fs =
        ⟨[Event.copy (join2 root file)
            (pjoin [toDir, (strSplitOn p1 "_bold").headI, pipeline] ++ "/I_preproc.nii.gz")],
         fs.setFile (pjoin [toDir, (strSplitOn p1 "_bold").headI, pipeline] ++
            "/I_preproc.nii.gz") cnt,
         Except.ok ()⟩)
    ∧ (∀ subStr toDir pipeline root file (fs : FS) p1,
      strEndsWith file ".nii.gz" = true →
      (strSplitOn file ("sub-" ++ subStr ++ "_task-"))[1]? = some p1 →
      strContains ((strSplitOn file ".").headI) "brainmask" = false →
      strContains ((strSplitOn file ".").headI) "preproc" = false →
      (∀ s d, Event.copy s d ∉ (processFuncFile subStr toDir pipeline root file fs).events)
      ∧ (processFuncFile subStr toDir pipeline root file fs).out = Except.ok ())
    ∧ (∀ subStr toDir pipeline root file (fs : FS) p1 cnt,
      strEndsWith file ".nii.gz" = true →
      (strSplitOn file ("sub-" ++ subStr ++ "_task-"))[1]? = some p1 →
      fs.getFile (join2 root file) = some cnt →
      fs.existsP (pjoin [toDir, (strSplitOn p1 "_bold").headI, pipeline]) = false →
      stripSlash (pjoin [toDir, (strSplitOn p1 "_bold").headI, pipeline]) =
        pjoin [toDir, (strSplitOn p1 "_bold").headI, pipeline] →
      strContains ((strSplitOn file ".").headI) "brainmask" = true →
      processFuncFile subStr toDir pipeline root file fs =
        ⟨[Event.mkdir (pjoin [toDir, (strSplitOn p1 "_bold").headI, pipeline]),
          Event.copy (join2 root file)
            (pjoin [toDir, (strSplitOn p1 "_bold").headI, pipeline] ++ "/brainmask.nii.gz")],
         (fs.addDirs (ancestorDirs (pjoin [toDir, (strSplitOn p1 "_bold").headI,
            pipeline]))).setFile
           (pjoin [toDir, (strSplitOn p1 "_bold").headI, pipeline] ++ "/brainmask.nii.gz") cnt,
         Except.ok ()⟩)
    ∧ (∀ subStr toAnatDir root file (fs : FS) cnt,
      strEndsWith file ".nii.gz" = true →
      fs.getFile (join2 root file) = some cnt →
      fs.isdir (pjoin [toAnatDir, "preprocessed"]) = true →
      strContains ((strSplitOn file ".").headI) "brainmask" = true →
      processAnatFile subStr toAnatDir root file fs =
        ⟨[Event.copy (join2 root file)
            (pjoin [toAnatDir, "preprocessed"] ++ "/T1w_brainmask.nii.gz")],
         fs.setFile (pjoin [toAnatDir, "preprocessed"] ++ "/T1w_brainmask.nii.gz") cnt,
         Except.ok ()⟩)
    ∧ (∀ subStr toAnatDir root file (fs : FS) cnt,
      strEndsWith file ".nii.gz" = true →
      fs.getFile (join2 root file) = some cnt →
      fs.isdir (pjoin [toAnatDir, "preprocessed"]) = true →
      strContains ((strSplitOn file ".").headI) "brainmask" = false →
      strContains ((strSplitOn file ".").headI) "preproc" = true →
      processAnatFile subStr toAnatDir root file fs =
        ⟨[Event.copy (join2 root file)
            (pjoin [toAnatDir, "preprocessed"] ++ "/T1w_preproc.nii.gz")],
         fs.setFile (pjoin [toAnatDir, "preprocessed"] ++ "/T1w_preproc.nii.gz") cnt,
         Except.ok ()⟩) := by
  have hdnb : ∀ d : String, dirname (d ++ "/brainmask.nii.gz") = d := by
    intro d
    have h : d ++ "/brainmask.nii.gz" = d ++ "/" ++ "brainmask.nii.gz" := by
      rw [strAppend_assoc]
      rfl
    rw [h]
    exact dirname_append _ _ (by decide)
  have hdnp : ∀ d : String, dirname (d ++ "/I_preproc.nii.gz") = d := by
    intro d
    have h : d ++ "/I_preproc.nii.gz" = d ++ "/" ++ "I_preproc.nii.gz" := by
      rw [strAppend_assoc]
      rfl
    rw [h]
    exact dirname_append _ _ (by decide)
  have hdnt : ∀ d : String, dirname (d ++ "/T1w_brainmask.nii.gz") = d := by
    intro d
    have h : d ++ "/T1w_brainmask.nii.gz" = d ++ "/" ++ "T1w_brainmask.nii.gz" := by
      rw [strAppend_assoc]
      rfl
    rw [h]
    exact dirname_append _ _ (by decide)
  have hdnq : ∀ d : String, dirname (d ++ "/T1w_preproc.nii.gz") = d := by
    intro d
    have h : d ++ "/T1w_preproc.nii.gz" = d ++ "/" ++ "T1w_preproc.nii.gz" := by
      rw [strAppend_assoc]
      rfl
    rw [h]
    exact dirname_append _ _ (by decide)
  refine ⟨?_, ?_, ?_, ?_, ?_, ?_, ?_, ?_⟩
  · intro subStr toDir pipeline root file fs hends
    simp [processFuncFile, bind_eq, pure_eq, M.bind, M.pure, hends]
  · intro subStr toDir pipeline root file fs hends hsplit
    simp [processFuncFile, bind_eq, pure_eq, M.bind, M.pure, hends, pyIndex, hsplit]
  · intro subStr toDir pipeline root file fs p1 cnt hends hsplit hsrc hdir hbm
    have hex : fs.existsP (pjoin [toDir, (strSplitOn p1 "_bold").headI, pipeline]) = true := by
      simp [FS.existsP, hdir]
    simp [processFuncFile, bind_eq, pure_eq, M.bind, M.pure, hends, pyIndex, hsplit,
      existsM, hex, hbm, copyfileM, hsrc, hdnb, hdir]
  · intro subStr toDir pipeline root file fs p1 cnt hends hsplit hsrc hdir hbm hpp
    have hex : fs.existsP (pjoin [toDir, (strSplitOn p1 "_bold").headI, pipeline]) = true := by
      simp [FS.existsP, hdir]
    simp [processFuncFile, bind_eq, pure_eq, M.bind, M.pure, hends, pyIndex, hsplit,
      existsM, hex, hbm, hpp, copyfileM, hsrc, hdnp, hdir]
  · intro subStr toDir pipeline root file fs p1 hends hsplit hbm hpp
    constructor
    · intro s d hmem
      by_cases hex : fs.existsP (pjoin [toDir, (strSplitOn p1 "_bold").headI, pipeline]) <;>
        simp [processFuncFile, bind_eq, pure_eq, M.bind, M.pure, hends, pyIndex, hsplit,
          existsM, hex, hbm, hpp, mkdirsM] at hmem
    · by_cases hex : fs.existsP (pjoin [toDir, (strSplitOn p1 "_bold").headI, pipeline]) <;>
        simp [processFuncFile, bind_eq, pure_eq, M.bind, M.pure, hends, pyIndex, hsplit,
          existsM, hex, hbm, hpp, mkdirsM]
  · intro subStr toDir pipeline root file fs p1 cnt hends hsplit hsrc hex hstrip hbm
    have hdir2 : ((fs.addDirs (ancestorDirs (pjoin [toDir, (strSplitOn p1 "_bold").headI,
        pipeline]))).isdir (pjoin [toDir, (strSplitOn p1 "_bold").headI, pipeline])) = true :=
      isdir_addDirs_self fs _ hstrip
    have hsrc2 : (fs.addDirs (ancestorDirs (pjoin [toDir, (strSplitOn p1 "_bold").headI,
        pipeline]))).getFile (join2 root file) = some cnt := hsrc
    simp [processFuncFile, bind_eq, pure_eq, M.bind, M.pure, hends, pyIndex, hsplit,
      existsM, hex, hbm, mkdirsM, copyfileM, hsrc2, hdnb, hdir2]
  · intro subStr toAnatDir root file fs cnt hends hsrc hdir hbm
    have hex : fs.existsP (pjoin [toAnatDir, "preprocessed"]) = true := by
      simp [FS.existsP, hdir]
    simp [processAnatFile, bind_eq, pure_eq, M.bind, M.pure, hends, existsM, hex, hbm,
      copyfileM, hsrc, hdnt, hdir]
  · intro subStr toAnatDir root file fs cnt hends hsrc hdir hbm hpp
    have hex : fs.existsP (pjoin [toAnatDir, "preprocessed"]) = true := by
      simp [FS.existsP, hdir]
    simp [processAnatFile, bind_eq, pure_eq, M.bind, M.pure, hends, existsM, hex, hbm, hpp,
      copyfileM, hsrc, hdnq, hdir]

/-- C6 counterexample: a `.nii.gz` file whose name lacks the
`sub-<subStr>_task-` marker makes `moveToProject` raise `IndexError` (from
`file.split(start)[1]`) instead of skipping the file as the claim
states. -/
theorem claim_C6_counterexample :
    (moveToProject "q" "a" "1" "2" "d" "pipe" none fsC6).out =
      Except.error Err.indexError := rfl

/-- C8: `smooth_preprocessed_data` hands `nib.save` the path
`<base>_smoothed_<kw>` obtained by dropping the final `.nii.gz` segments
without restoring any extension — the output path ends in neither `.nii.gz`
nor `.json`, and nibabel, unable to infer a format, raises.  This
contradicts the spec's statement that every produced file is a compressed
NIfTI or JSON sidecar: the code is the slip (the claim is the intent). -/
theorem claim_C8 :
    smoothOutputPath
      "w/data/imaging/participants/a/visit1/session2/fmri/rest/pipe/I_preproc.nii.gz" 4 =
      "w/data/imaging/participants/a/visit1/session2/fmri/rest/pipe/I_preproc_smoothed_4"
    ∧ strEndsWith (smoothOutputPath
        "w/data/imaging/participants/a/visit1/session2/fmri/rest/pipe/I_preproc.nii.gz" 4)
        ".nii.gz" = false
    ∧ strEndsWith (smoothOutputPath
        "w/data/imaging/participants/a/visit1/session2/fmri/rest/pipe/I_preproc.nii.gz" 4)
        ".json" = false
    ∧ Event.nibSave
        "w/data/imaging/participants/a/visit1/session2/fmri/rest/pipe/I_preproc_smoothed_4"
        ∈ (smooth_preprocessed_data envId "w" "a" "1" "2" 4 fsC8).events
    ∧ (smooth_preprocessed_data envId "w" "a" "1" "2" 4 fsC8).out =
        Except.error Err.imageFileError := by
  refine ⟨by decide, by decide, by decide, by decide, rfl⟩

theorem claim_C2_witness :
    (anatPhase "fd" "td" "a12" fsC2).events =
      [Event.copy "fd/anatomical/spgr_watershed.nii.gz" (anatDst "td" "a12")]
    ∧ (anatPhase "fd" "td" "a12" fsC2).out = Except.ok () := by
  have h := (claim_C2 "fd" "td" "a12" fsC2 (by decide) (by decide)).2 (by decide)
  obtain ⟨hev, hout⟩ := h
  refine ⟨?_, hout⟩
  rw [hev]
  rfl

theorem claim_C3_witness :
    anatPhase "fd" "td" "a12" ⟨[], []⟩ = ⟨[], ⟨[], []⟩, Except.ok ()⟩
    ∧ (funcPhase envId "fd" "td" "tr" "a12" none ⟨[], []⟩).out =
        Except.error Err.stopIteration :=
  ⟨claim_C3.1 "fd" "td" "a12" ⟨[], []⟩ (by decide),
   claim_C3.2.2.1 envId "fd" "td" "tr" "a12" ⟨[], []⟩ (by decide)⟩

theorem claim_C1_witness :
    ((∃ s, Event.shell "fslreorient2std" s ∈
        (coordCheck envId "r" "a12" "rest" fsC1).events) ↔
      ((200 : Rat) - 90 > 25 ∨ (-126 : Rat) - (-126) > 25 ∨ (-72 : Rat) - (-72) > 25))
    ∧ (¬ ((200 : Rat) - 90 > 25 ∨ (-126 : Rat) - (-126) > 25 ∨ (-72 : Rat) - (-72) > 25) →
        (coordCheck envId "r" "a12" "rest" fsC1).fs = fsC1) :=
  claim_C1 envId "r" "a12" "rest" fsC1 imgFar 200 (-126) (-72) (by decide) (by decide)
    (by decide) (by decide)

theorem claim_C9_witness :
    (reorientBlock envId "r" "a12" "rest" fsC1).out = Except.ok ()
    ∧ (reorientBlock envId "r" "a12" "rest" fsC1).fs.getFile (boldPath "r" "a12" "rest") =
        some (Content.image (envId.reorient imgFar))
    ∧ (reorientBlock envId "r" "a12" "rest" fsC1).fs.getFile (boldOrigPath "r" "a12" "rest") =
        none
    ∧ (reorientBlock envId "r" "a12" "rest" fsC1).fs.getFile (boldReoPath "r" "a12" "rest") =
        none
    ∧ (∀ q, q ≠ boldPath "r" "a12" "rest" → q ≠ boldReoPath "r" "a12" "rest" →
        q ≠ boldOrigPath "r" "a12" "rest" →
        (reorientBlock envId "r" "a12" "rest" fsC1).fs.getFile q = fsC1.getFile q) :=
  claim_C9 envId "r" "a12" "rest" fsC1 imgFar 200 (-126) (-72) (by decide) (by decide)
    (by decide) (by decide)

theorem claim_C10_witness :
    createBIDS envId "q" "a" "1" "2" (some "x") fsC10 =
      ⟨[], fsC10, Except.error Err.fileNotFound⟩
    ∧ fsC10.isdir (dirname (anatDst (toDirOf "q" "a" "1" "2") (subStrOf "a" "1" "2"))) =
        false :=
  claim_C10.2.2.2.2 envId "q" "a" "1" "2" (some "x") fsC10 (by decide) (by decide)
    (by decide) (by decide) (by decide)

theorem claim_C5_witness :
    ((copyfileM "s" "d/x.nii.gz" ⟨["d"], [("s", Content.raw 0)]⟩).fs.isfile
      "d/x.nii.gz") = true :=
  claim_C5.2 ⟨["d"], [("s", Content.raw 0)]⟩ "s" "d/x.nii.gz" (by rfl)

theorem claim_C6_witness :
    processFuncFile "a12" "pr" "pipe" "d/fmriprep/sub-a12/func"
      "sub-a12_task-rest_bold_brainmask.nii.gz" fsC6w =
      ⟨[Event.copy
          "d/fmriprep/sub-a12/func/sub-a12_task-rest_bold_brainmask.nii.gz"
          (pjoin ["pr",
            (strSplitOn "rest_bold_brainmask.nii.gz" "_bold").headI, "pipe"] ++
            "/brainmask.nii.gz")],
       fsC6w.setFile (pjoin ["pr",
          (strSplitOn "rest_bold_brainmask.nii.gz" "_bold").headI, "pipe"] ++
          "/brainmask.nii.gz") (Content.raw 3),
       Except.ok ()⟩ :=
  claim_C6.2.2.1 "a12" "pr" "pipe" "d/fmriprep/sub-a12/func"
    "sub-a12_task-rest_bold_brainmask.nii.gz" fsC6w "rest_bold_brainmask.nii.gz"
    (Content.raw 3) (by decide) (by decide) (by decide) (by decide) (by decide)

end BIDSGen

